import Mathlib

/-!
Verification development for the zkvault-simulator repository.

The file embeds, as executable Lean definitions, the parts of the source
that carry the system's semantics:

* `src/lib/simulation/hash.ts` — the hashing module (`hashString`,
  `hashObject` and the JSON canonicalisation it relies on);
* `src/lib/zksnark/verifier.ts` — proof verification with its nullifier
  registry (`verifyProof`, `simulatePairingCheck`, `verifyPublicSignals`);
* the smart-contract simulation module bundled with `App.tsx`
  (`issueCertificate`, `verifyCertificateOnChain`,
  `revokeCertificateOnChain`, `suspendCertificateOnChain`,
  `reinstateCertificateOnChain`, `mineBlock`, `recordTransaction`);
* `src/lib/simulation/blockchain.ts` (`storeCertificate`,
  `revokeCertificate`, `suspendCertificate`, `reinstateCertificate`).

Browser state (localStorage) is made explicit: every stateful function
takes the relevant store as an argument and returns the updated store.
Sources of nondeterminism in the code (wall-clock time, random
transaction hashes, random record ids) are passed in as explicit oracle
arguments.  A JavaScript `throw` is modelled as `Except.error`.
-/

namespace ZKVault

/-! ## JSON values

JavaScript objects handled by the hashing and ledger modules are modelled
by the inductive type `JVal`.  An object is its list of key/value entries
in insertion order; numbers are restricted to integers (the repository
never hashes fractional numbers on the paths under study). -/

inductive JVal where
  | null : JVal
  | bool (b : Bool) : JVal
  | num (n : Int) : JVal
  | str (s : String) : JVal
  | arr (elems : List JVal) : JVal
  | obj (entries : List (String × JVal)) : JVal

/-- Property lookup on a JavaScript object: the first entry with the given
key wins (real JS objects never hold a key twice). -/
def lookupKV : List (String × JVal) → String → Option JVal
  | [], _ => none
  | (k, v) :: rest, key => if k = key then some v else lookupKV rest key

/-- Escape of one character inside a JSON string literal, as performed by
`JSON.stringify` for the characters that occur in this repository. -/
def jsonEscapeChar (c : Char) : String :=
  if c = '"' then "\\\""
  else if c = '\\' then "\\\\"
  else if c = '\n' then "\\n"
  else if c = '\r' then "\\r"
  else if c = '\t' then "\\t"
  else String.singleton c

/-- JSON rendering of a string literal. -/
def jsonQuote (s : String) : String :=
  "\"" ++ String.join (s.data.map jsonEscapeChar) ++ "\""

/-- Leading-match test on character lists (text, then pattern). -/
def charsBegin : List Char → List Char → Bool
  | _, [] => true
  | [], _ :: _ => false
  | c :: cs, p :: ps => c = p && charsBegin cs ps

/-- Model of JavaScript `text.startsWith(pattern)` (kernel-reducible,
unlike the library string primitive). -/
def beginsWith (text pattern : String) : Bool :=
  charsBegin text.data pattern.data

/-- Entries of an object selected and ordered by a `JSON.stringify`
replacer array: for each key of the property list in order, the object's
binding for that key, when present. -/
def entriesFor (plist : List String) (kvs : List (String × JVal)) :
    List (String × JVal) :=
  plist.filterMap fun k => (lookupKV kvs k).map fun v => (k, v)

theorem lookupKV_mem {kvs : List (String × JVal)} {k : String} {v : JVal}
    (h : lookupKV kvs k = some v) : (k, v) ∈ kvs := by
  induction kvs with
  | nil => simp [lookupKV] at h
  | cons hd tl ih =>
    obtain ⟨k', v'⟩ := hd
    by_cases hk : k' = k
    · subst hk
      simp [lookupKV] at h
      subst h
      exact List.mem_cons_self _ _
    · simp [lookupKV, hk] at h
      exact List.mem_cons_of_mem _ (ih h)

theorem entriesFor_mem {plist : List String} {kvs : List (String × JVal)}
    {e : String × JVal} (h : e ∈ entriesFor plist kvs) :
    lookupKV kvs e.1 = some e.2 := by
  unfold entriesFor at h
  obtain ⟨k, _, hk⟩ := List.mem_filterMap.mp h
  cases hv : lookupKV kvs k with
  | none => simp [hv] at hk
  | some v =>
    simp [hv] at hk
    subst hk
    exact hv

theorem sizeOf_of_lookupKV {kvs : List (String × JVal)} {k : String}
    {v : JVal} (h : lookupKV kvs k = some v) : sizeOf v < sizeOf kvs := by
  induction kvs with
  | nil => simp [lookupKV] at h
  | cons hd tl ih =>
    obtain ⟨k', v'⟩ := hd
    by_cases hk : k' = k
    · subst hk
      simp [lookupKV] at h
      subst h
      simp
      omega
    · simp [lookupKV, hk] at h
      have := ih h
      simp
      omega

/-- Rendering of a `JVal` by `JSON.stringify(value, replacer)` where
`replacer` is an array of property names: objects keep only the listed
keys, in list order, at every nesting level. -/
def serializeVal (plist : List String) : JVal → String
  | .null => "null"
  | .bool b => if b then "true" else "false"
  | .num n => toString n
  | .str s => jsonQuote s
  | .arr xs =>
      "[" ++ String.intercalate ","
        (xs.attach.map fun e => serializeVal plist e.1) ++ "]"
  | .obj kvs =>
      "\x7b" ++ String.intercalate ","
        ((entriesFor plist kvs).attach.map fun e =>
          jsonQuote e.1.1 ++ ":" ++ serializeVal plist e.1.2) ++ "\x7d"
termination_by v => sizeOf v
decreasing_by
  · have h := List.sizeOf_lt_of_mem e.2
    simp only [JVal.arr.sizeOf_spec]
    omega
  · have h := sizeOf_of_lookupKV (entriesFor_mem e.2)
    simp only [JVal.obj.sizeOf_spec]
    omega

/-! ## String ordering used by `Object.keys(obj).sort()`

JavaScript's default array sort compares strings lexicographically by
code unit; for the ASCII keys occurring in this repository this agrees
with lexicographic comparison of code points, modelled here by an
executable Boolean comparison. -/

def charsLe : List Char → List Char → Bool
  | [], _ => true
  | _ :: _, [] => false
  | a :: as, b :: bs => if a = b then charsLe as bs else decide (a < b)

theorem charsLe_total (as bs : List Char) :
    charsLe as bs = true ∨ charsLe bs as = true := by
  induction as generalizing bs with
  | nil => left; rfl
  | cons a as ih =>
    cases bs with
    | nil => right; rfl
    | cons b bs =>
      by_cases hab : a = b
      · subst hab
        rcases ih bs with h | h
        · left; simpa [charsLe] using h
        · right; simpa [charsLe] using h
      · rcases lt_or_gt_of_ne hab with h | h
        · left; simp [charsLe, hab, h]
        · right; simp [charsLe, Ne.symm hab, h]

theorem charsLe_trans {as bs cs : List Char} (h1 : charsLe as bs = true)
    (h2 : charsLe bs cs = true) : charsLe as cs = true := by
  induction as generalizing bs cs with
  | nil => rfl
  | cons a as ih =>
    cases bs with
    | nil => simp [charsLe] at h1
    | cons b bs =>
      cases cs with
      | nil => simp [charsLe] at h2
      | cons c cs =>
        by_cases hab : a = b <;> by_cases hbc : b = c
        · subst hab; subst hbc
          simp [charsLe] at h1 h2 ⊢
          exact ih h1 h2
        · subst hab
          simp [charsLe, hbc] at h2 ⊢
          exact h2
        · subst hbc
          simp [charsLe, hab] at h1 ⊢
          exact h1
        · simp [charsLe, hab] at h1
          simp [charsLe, hbc] at h2
          have hac : a < c := lt_trans h1 h2
          simp [charsLe, ne_of_lt hac, hac]

theorem charsLe_antisymm {as bs : List Char} (h1 : charsLe as bs = true)
    (h2 : charsLe bs as = true) : as = bs := by
  induction as generalizing bs with
  | nil =>
    cases bs with
    | nil => rfl
    | cons b bs => simp [charsLe] at h2
  | cons a as ih =>
    cases bs with
    | nil => simp [charsLe] at h1
    | cons b bs =>
      by_cases hab : a = b
      · subst hab
        simp [charsLe] at h1 h2
        rw [ih h1 h2]
      · simp [charsLe, hab] at h1
        simp [charsLe, Ne.symm hab] at h2
        exact absurd h2 (not_lt_of_gt h1)

/-- Default JavaScript string comparison, as a propositional relation. -/
def keyLe (a b : String) : Prop := charsLe a.data b.data = true

instance : DecidableRel keyLe := fun a b => instDecidableEqBool _ _

instance : IsTotal String keyLe := ⟨fun a b => charsLe_total a.data b.data⟩

instance : IsTrans String keyLe := ⟨fun _ _ _ => charsLe_trans⟩

instance : IsAntisymm String keyLe :=
  ⟨fun a b h1 h2 => by
    have h := charsLe_antisymm h1 h2
    cases a; cases b; simp at h; rw [h]⟩

/-- Model of `Object.keys(obj).sort()`: the object's keys in insertion
order, sorted by the default string comparison. -/
def sortKeys (keys : List String) : List String :=
  List.insertionSort keyLe keys

/-- Replacer list actually consulted by `JSON.stringify`: the sorted key
array with duplicates skipped (ECMA-262 keeps only the first occurrence
of each name when building the property list; on a sorted list this
agrees with `List.dedup`). -/
def propertyList (kvs : List (String × JVal)) : List String :=
  (sortKeys (kvs.map Prod.fst)).dedup

/-! ## Hasher (`src/lib/simulation/hash.ts`) -/

/-- Hexadecimal digit characters. -/
def hexDigitChar (n : Nat) : Char :=
  if n < 10 then Char.ofNat (48 + n) else Char.ofNat (87 + n)

/-- Fixed-width 64-digit hexadecimal rendering of a natural number. -/
def natToHex64 (n : Nat) : String :=
  String.mk ((List.range 64).map fun i => hexDigitChar (n / 16 ^ (63 - i) % 16))

/-- Modelled from the spec: `hashString` applies SHA-256 (via the external
crypto-js library, which is not part of the repository source) and returns
the hex-encoded digest.  The model keeps the spec's contract — a fixed,
deterministic, side-effect-free function from strings to hex digest
strings — with the digest computation replaced by an explicit folding
hash, since the SHA-256 internals live outside `src/`. -/
def hashString (s : String) : String :=
  natToHex64 (s.data.foldl (fun h c => (h * 131 + c.toNat + 17) % 2 ^ 256) 7)

/-- Model of `hashObject` from `src/lib/simulation/hash.ts`:
`hashString(JSON.stringify(obj, Object.keys(obj).sort()))`.  The second
argument of `JSON.stringify` is a replacer array: every object level
keeps only the listed keys, rendered in list order. -/
def hashObject (kvs : List (String × JVal)) : String :=
  hashString (serializeVal (propertyList kvs) (.obj kvs))

/-! Rewriting equations for `serializeVal` in terms of plain `List.map`. -/

theorem serializeVal_arr (plist : List String) (xs : List JVal) :
    serializeVal plist (.arr xs) =
      "[" ++ String.intercalate "," (xs.map (serializeVal plist)) ++ "]" := by
  rw [serializeVal]
  rw [List.attach_map_val xs (serializeVal plist)]

theorem serializeVal_obj (plist : List String) (kvs : List (String × JVal)) :
    serializeVal plist (.obj kvs) =
      "\x7b" ++ String.intercalate ","
        ((entriesFor plist kvs).map fun e =>
          jsonQuote e.1 ++ ":" ++ serializeVal plist e.2) ++ "\x7d" := by
  rw [serializeVal]
  rw [List.attach_map_val (entriesFor plist kvs)
    (fun e => jsonQuote e.1 ++ ":" ++ serializeVal plist e.2)]

/-! ## Equality of JSON values as key-value maps

Two values are related by `JEquiv` when they are equal up to the
insertion order of object entries: arrays must agree pointwise, and
objects must have the same keys (as a multiset) with the bindings for
each key related recursively.  For genuine JavaScript objects, whose
keys are unique, this is exactly "the same keys bound to the same
values, regardless of key insertion order, including inside nested
objects". -/

inductive JEquiv : JVal → JVal → Prop where
  | null : JEquiv .null .null
  | bool (b : Bool) : JEquiv (.bool b) (.bool b)
  | num (n : Int) : JEquiv (.num n) (.num n)
  | str (s : String) : JEquiv (.str s) (.str s)
  | arr (xs ys : List JVal) (hlen : xs.length = ys.length)
      (hval : ∀ i (h1 : i < xs.length) (h2 : i < ys.length),
        JEquiv (xs.get ⟨i, h1⟩) (ys.get ⟨i, h2⟩)) :
      JEquiv (.arr xs) (.arr ys)
  | obj (kvs1 kvs2 : List (String × JVal))
      (hkeys : (kvs1.map Prod.fst).Perm (kvs2.map Prod.fst))
      (hval : ∀ k v1 v2, lookupKV kvs1 k = some v1 →
        lookupKV kvs2 k = some v2 → JEquiv v1 v2) :
      JEquiv (.obj kvs1) (.obj kvs2)

theorem lookupKV_isSome_iff {kvs : List (String × JVal)} {k : String} :
    (lookupKV kvs k).isSome = true ↔ k ∈ kvs.map Prod.fst := by
  induction kvs with
  | nil => simp [lookupKV]
  | cons hd tl ih =>
    obtain ⟨k', v'⟩ := hd
    by_cases h : k' = k
    · subst h; simp [lookupKV]
    · simp [lookupKV, h, ih, Ne.symm h]

theorem serializeVal_congr {v1 v2 : JVal} (h : JEquiv v1 v2) :
    ∀ plist : List String, serializeVal plist v1 = serializeVal plist v2 := by
  induction h with
  | null => intro _; rfl
  | bool b => intro _; rfl
  | num n => intro _; rfl
  | str s => intro _; rfl
  | arr xs ys hlen hval ih =>
    intro plist
    rw [serializeVal_arr, serializeVal_arr]
    have : xs.map (serializeVal plist) = ys.map (serializeVal plist) := by
      apply List.ext_get (by simpa using hlen)
      intro i h1 h2
      simp only [List.get_map]
      exact ih i (by simpa using h1) (by simpa using h2) plist
    rw [this]
  | obj kvs1 kvs2 hkeys hval ih =>
    intro plist
    rw [serializeVal_obj, serializeVal_obj]
    have aux : ∀ ks : List String,
        ((entriesFor ks kvs1).map fun e =>
          jsonQuote e.1 ++ ":" ++ serializeVal plist e.2) =
        ((entriesFor ks kvs2).map fun e =>
          jsonQuote e.1 ++ ":" ++ serializeVal plist e.2) := by
      intro ks
      induction ks with
      | nil => rfl
      | cons k ks ihk =>
        cases h1 : lookupKV kvs1 k with
        | none =>
          cases h2 : lookupKV kvs2 k with
          | none => simpa [entriesFor, List.filterMap_cons, h1, h2] using ihk
          | some v2 =>
            exfalso
            have hmem : k ∈ kvs2.map Prod.fst := lookupKV_isSome_iff.mp (by simp [h2])
            have : k ∈ kvs1.map Prod.fst := hkeys.mem_iff.mpr hmem
            have := lookupKV_isSome_iff.mpr this
            simp [h1] at this
        | some v1 =>
          cases h2 : lookupKV kvs2 k with
          | none =>
            exfalso
            have hmem : k ∈ kvs1.map Prod.fst := lookupKV_isSome_iff.mp (by simp [h1])
            have : k ∈ kvs2.map Prod.fst := hkeys.mem_iff.mp hmem
            have := lookupKV_isSome_iff.mpr this
            simp [h2] at this
          | some v2 =>
            have hv : serializeVal plist v1 = serializeVal plist v2 :=
              ih k v1 v2 h1 h2 plist
            simpa [entriesFor, List.filterMap_cons, h1, h2, hv] using ihk
    rw [aux plist]

theorem sortKeys_perm_eq {l1 l2 : List String} (h : l1.Perm l2) :
    sortKeys l1 = sortKeys l2 :=
  List.eq_of_perm_of_sorted
    ((List.perm_insertionSort keyLe l1).trans
      (h.trans (List.perm_insertionSort keyLe l2).symm))
    (List.sorted_insertionSort keyLe l1)
    (List.sorted_insertionSort keyLe l2)

theorem propertyList_congr {kvs1 kvs2 : List (String × JVal)}
    (h : (kvs1.map Prod.fst).Perm (kvs2.map Prod.fst)) :
    propertyList kvs1 = propertyList kvs2 := by
  unfold propertyList
  rw [sortKeys_perm_eq h]

/-! ## ZK-SNARK verifier (`src/lib/zksnark/verifier.ts`)

The `ZKProof` interface of `src/lib/zksnark/prover.ts` declares fixed
tuple shapes, but at runtime proofs reach the verifier through
`deserializeProof` (an unchecked `JSON.parse`), so the verifier guards
every field itself.  The embedding therefore uses lists and `Option`s:
`none` models a missing (`undefined`) sub-object, and index
accesses are modelled exactly where the code performs them.  The
`generatedAt` ISO timestamp and the verification clock (`Date.now()`)
are modelled by their numeric millisecond values; the ISO
`timestamp` string placed in the result details is abstracted to the
rendered clock value. -/

/-- Core proof object: the `proof` field of a `ZKProof`. -/
structure ProofCore where
  pi_a : List String
  pi_b : List (List String)
  pi_c : List String
  protocol : String
  curve : String
  deriving DecidableEq, Repr

/-- Disclosed attribute entries from `prover.ts` (`DisclosedAttribute`).
The `value` field is a JavaScript value (string, boolean or number). -/
structure DisclosedAttribute where
  key : String
  label : String
  value : JVal
  proofElement : String

/-- Proof metadata; `disclosures` is optional because `verifyProof`
defends against its absence (`proof.metadata.disclosures || []`). -/
structure ProofMetadata where
  circuitType : String
  generatedAt : Int
  version : String
  disclosures : Option (List DisclosedAttribute)

/-- Runtime shape of a proof reaching `verifyProof`. -/
structure ZKProof where
  proof : Option ProofCore
  publicSignals : Option (List String)
  metadata : Option ProofMetadata

/-- Result details block of a `VerificationResult`. -/
structure VerificationDetails where
  proofValid : Bool
  commitmentValid : Bool
  nullifierUnique : Bool
  disclosuresVerified : Bool
  timestamp : String

/-- Result of `verifyProof`. -/
structure VerificationResult where
  valid : Bool
  message : String
  details : VerificationDetails
  disclosedAttributes : Option (List DisclosedAttribute)

/-- Model of `verifyPointFormat(point, expectedLength)`. -/
def verifyPointFormat (point : List String) (expectedLength : Nat) : Bool :=
  point.length = expectedLength &&
    point.all fun p => beginsWith p "0x" || p = "1" || p = "0"

/-- Message of the TypeError thrown when `proof.pi_b[2][0]` is read while
`pi_b` has fewer than three rows (the exact text is engine-specific; only
the fact that the generic catch branch is taken matters). -/
def undefinedReadMsg : String :=
  "TypeError: cannot read properties of undefined"

/-- Model of `simulatePairingCheck`.  A JavaScript `throw` escaping the
function is modelled as `Except.error` carrying the error message: the
read `proof.pi_b[2][0]` throws when `pi_b` has fewer than three rows and
every earlier check passed. -/
def simulatePairingCheck (p : ProofCore) : Except String Bool :=
  if ¬ verifyPointFormat p.pi_a 3 then .ok false
  else if ¬ p.pi_b.all (fun row => verifyPointFormat row 2) then .ok false
  else if ¬ verifyPointFormat p.pi_c 3 then .ok false
  else if p.protocol ≠ "groth16" || p.curve ≠ "bn128" then .ok false
  else if p.pi_a.getD 2 "" ≠ "1" then .ok false
  else if p.pi_c.getD 2 "" ≠ "1" then .ok false
  else
    match p.pi_b.get? 2 with
    | none => .error undefinedReadMsg
    | some row =>
        if row.getD 0 "" ≠ "1" || row.getD 1 "" ≠ "0" then .ok false
        else .ok true

/-- Model of `verifyPublicSignals`. -/
def verifyPublicSignals (publicSignals : List String) : Bool :=
  2 ≤ publicSignals.length &&
    beginsWith (publicSignals.getD 0 "") "0x" &&
    beginsWith (publicSignals.getD 1 "") "0x"

/-- Nullifier registry (the `zkvault_nullifiers` localStorage key): the
JSON array underlying the JavaScript `Set`, in insertion order. -/
def isNullifierUsed (registry : List String) (nullifier : String) : Bool :=
  registry.contains nullifier

/-- Model of `saveNullifier`: `Set.add` keeps insertion order and ignores
an element that is already present. -/
def saveNullifier (registry : List String) (nullifier : String) :
    List String :=
  if registry.contains nullifier then registry else registry ++ [nullifier]

/-- Truthiness-and-shape check applied to each disclosure entry
(`d.key && d.label && d.proofElement && d.proofElement.startsWith('0x')`;
an empty JavaScript string is falsy). -/
def disclosureOk (d : DisclosedAttribute) : Bool :=
  d.key ≠ "" && d.label ≠ "" && d.proofElement ≠ "" &&
    beginsWith d.proofElement "0x"

/-- Proof expiry window: 24 hours in milliseconds. -/
def maxProofAge : Int := 24 * 60 * 60 * 1000

/-- Failure result with the given message and detail flags. -/
def failResult (message : String) (proofValid commitmentValid
    nullifierUnique disclosuresVerified : Bool) (ts : String) :
    VerificationResult :=
  { valid := false
    message := message
    details :=
      { proofValid := proofValid
        commitmentValid := commitmentValid
        nullifierUnique := nullifierUnique
        disclosuresVerified := disclosuresVerified
        timestamp := ts }
    disclosedAttributes := none }

/-- Model of `verifyProof(proof, documentHash, markNullifierUsed)`.

Inputs beyond the source signature make the implicit state explicit:
`registry` is the nullifier registry read from localStorage and `now` is
`Date.now()` in milliseconds.  The returned pair is the
`VerificationResult` together with the registry as left in localStorage.
The enclosing try/catch of the source maps a thrown error to the generic
`Verification error: ...` result. -/
def verifyProof (p : ZKProof) (documentHash : String)
    (markNullifierUsed : Bool) (registry : List String) (now : Int) :
    VerificationResult × List String :=
  let ts := toString now
  match p.proof, p.publicSignals, p.metadata with
  | some core, some ps, some md =>
    match simulatePairingCheck core with
    | .error e =>
        (failResult ("Verification error: " ++ e) false false false false ts,
          registry)
    | .ok pairingValid =>
      if ¬ pairingValid then
        (failResult "Pairing check failed - proof is invalid"
          false false false false ts, registry)
      else if ¬ verifyPublicSignals ps then
        (failResult "Public signals verification failed"
          true false false false ts, registry)
      else
        let nullifier := ps.getD 1 ""
        if isNullifierUsed registry nullifier then
          (failResult "Proof has already been used (nullifier reuse detected)"
            true true false false ts, registry)
        else
          let commitment := ps.getD 0 ""
          let commitmentValid :=
            beginsWith commitment "0x" && 64 ≤ commitment.length
          if ¬ commitmentValid then
            (failResult "Commitment verification failed"
              true false true false ts, registry)
          else
            let disclosures := md.disclosures.getD []
            if ¬ disclosures.all disclosureOk then
              (failResult "Disclosed attributes verification failed"
                true true true false ts, registry)
            else if maxProofAge < now - md.generatedAt then
              (failResult "Proof has expired (older than 24 hours)"
                true true true true ts, registry)
            else
              ({ valid := true
                 message := "Proof verified successfully"
                 details :=
                   { proofValid := true
                     commitmentValid := true
                     nullifierUnique := true
                     disclosuresVerified := true
                     timestamp := ts }
                 disclosedAttributes := some disclosures },
                if markNullifierUsed then saveNullifier registry nullifier
                else registry)
  | _, _, _ =>
      (failResult "Invalid proof structure" false false false false ts,
        registry)

/-! ## Spec-side view of the verifier: stage cascade

Following the spec's words, verification is a fixed ordered cascade of
stage checks — structural validity (required sub-objects plus the mock
pairing's shape and sentinel checks), public-signal validity, nullifier
uniqueness, commitment plausibility, disclosure well-formedness,
freshness — that short-circuits at the first failing stage, each failure
reporting its own stage. -/

inductive VStage where
  | structural
  | signals
  | nullifier
  | commitment
  | disclosures
  | freshness
  deriving DecidableEq, Repr

/-- Structural stage: all required sub-objects present and the simulated
pairing check passes. -/
def structuralOk (p : ZKProof) : Bool :=
  match p.proof, p.publicSignals, p.metadata with
  | some core, some _, some _ =>
      match simulatePairingCheck core with
      | .ok true => true
      | _ => false
  | _, _, _ => false

/-- Structural stage crash: the pairing check throws instead of
returning (reachable exactly when `pi_b` has fewer than three rows but
every earlier shape check passed). -/
def pairingCrashes (p : ZKProof) : Bool :=
  match p.proof, p.publicSignals, p.metadata with
  | some core, some _, some _ =>
      match simulatePairingCheck core with
      | .error _ => true
      | _ => false
  | _, _, _ => false

/-- Public-signal stage predicate. -/
def signalsOkP (p : ZKProof) : Bool :=
  verifyPublicSignals (p.publicSignals.getD [])

/-- Nullifier taken from the public signals. -/
def nullifierOfP (p : ZKProof) : String :=
  (p.publicSignals.getD []).getD 1 ""

/-- Commitment-plausibility stage predicate. -/
def commitmentOkP (p : ZKProof) : Bool :=
  let c := (p.publicSignals.getD []).getD 0 ""
  beginsWith c "0x" && 64 ≤ c.length

/-- Disclosure list of a proof (empty when absent). -/
def disclosuresOfP (p : ZKProof) : List DisclosedAttribute :=
  (p.metadata.map fun md => md.disclosures.getD []).getD []

/-- Disclosure well-formedness stage predicate. -/
def disclosuresOkP (p : ZKProof) : Bool :=
  (disclosuresOfP p).all disclosureOk

/-- Freshness stage predicate: the proof's age does not exceed the
24-hour window. -/
def freshOkP (p : ZKProof) (now : Int) : Bool :=
  decide (now - ((p.metadata.map fun md => md.generatedAt).getD 0) ≤ maxProofAge)

/-- First stage of the cascade that fails, if any. -/
def firstFailingStage (p : ZKProof) (registry : List String) (now : Int) :
    Option VStage :=
  if ¬ structuralOk p then some .structural
  else if ¬ signalsOkP p then some .signals
  else if isNullifierUsed registry (nullifierOfP p) then some .nullifier
  else if ¬ commitmentOkP p then some .commitment
  else if ¬ disclosuresOkP p then some .disclosures
  else if ¬ freshOkP p now then some .freshness
  else none

/-- Message of a structural-stage failure: the source distinguishes a
missing sub-object from a failed pairing check; both identify the
structural stage. -/
def structuralMsg (p : ZKProof) : String :=
  if p.proof.isSome && p.publicSignals.isSome && p.metadata.isSome then
    "Pairing check failed - proof is invalid"
  else "Invalid proof structure"

/-- Result reported for a failure at the given stage. -/
def stageFailResult (st : VStage) (p : ZKProof) (ts : String) :
    VerificationResult :=
  match st with
  | .structural => failResult (structuralMsg p) false false false false ts
  | .signals =>
      failResult "Public signals verification failed" true false false false ts
  | .nullifier =>
      failResult "Proof has already been used (nullifier reuse detected)"
        true true false false ts
  | .commitment =>
      failResult "Commitment verification failed" true false true false ts
  | .disclosures =>
      failResult "Disclosed attributes verification failed"
        true true true false ts
  | .freshness =>
      failResult "Proof has expired (older than 24 hours)" true true true true ts

/-- Success result of the cascade. -/
def successResult (p : ZKProof) (ts : String) : VerificationResult :=
  { valid := true
    message := "Proof verified successfully"
    details :=
      { proofValid := true
        commitmentValid := true
        nullifierUnique := true
        disclosuresVerified := true
        timestamp := ts }
    disclosedAttributes := some (disclosuresOfP p) }

/-- Cascade of the six stages exactly as the claim states it: the result
is determined by the first failing stage, and on success with
`markNullifierUsed` the nullifier is recorded. -/
def cascadeStated (p : ZKProof) (markNullifierUsed : Bool)
    (registry : List String) (now : Int) :
    VerificationResult × List String :=
  let ts := toString now
  match firstFailingStage p registry now with
  | some st => (stageFailResult st p ts, registry)
  | none =>
      (successResult p ts,
        if markNullifierUsed then saveNullifier registry (nullifierOfP p)
        else registry)

/-- Cascade amended by the structural-stage crash: a proof whose `pi_b`
is too short but otherwise shape-correct yields the generic caught-error
result instead of a stage message. -/
def cascadeActual (p : ZKProof) (markNullifierUsed : Bool)
    (registry : List String) (now : Int) :
    VerificationResult × List String :=
  if pairingCrashes p then
    (failResult ("Verification error: " ++ undefinedReadMsg)
      false false false false (toString now), registry)
  else cascadeStated p markNullifierUsed registry now

theorem simulatePairingCheck_error_msg {c : ProofCore} {e : String}
    (h : simulatePairingCheck c = .error e) : e = undefinedReadMsg := by
  unfold simulatePairingCheck at h
  split_ifs at h <;> try simp at h
  cases hb : c.pi_b[2]? with
  | none =>
    rw [hb] at h
    simp at h
    exact h.symm
  | some row =>
    rw [hb] at h
    simp at h
    split_ifs at h <;> simp_all

theorem verifyProof_eq_cascadeActual (p : ZKProof) (dh : String)
    (mark : Bool) (registry : List String) (now : Int) :
    verifyProof p dh mark registry now = cascadeActual p mark registry now := by
  obtain ⟨op, ops, omd⟩ := p
  cases op with
  | none =>
    cases ops <;> cases omd <;>
      simp [verifyProof, cascadeActual, cascadeStated, pairingCrashes,
        firstFailingStage, structuralOk, stageFailResult, structuralMsg]
  | some core =>
    cases ops with
    | none =>
      cases omd <;>
        simp [verifyProof, cascadeActual, cascadeStated, pairingCrashes,
          firstFailingStage, structuralOk, stageFailResult, structuralMsg]
    | some ps =>
      cases omd with
      | none =>
        simp [verifyProof, cascadeActual, cascadeStated, pairingCrashes,
          firstFailingStage, structuralOk, stageFailResult, structuralMsg]
      | some md =>
        cases hsim : simulatePairingCheck core with
        | error e =>
          have he := simulatePairingCheck_error_msg hsim
          subst he
          simp [verifyProof, cascadeActual, pairingCrashes, hsim]
        | ok b =>
          cases b with
          | false =>
            simp [verifyProof, cascadeActual, cascadeStated, pairingCrashes,
              hsim, firstFailingStage, structuralOk, stageFailResult,
              structuralMsg]
          | true =>
            simp only [verifyProof, cascadeActual, cascadeStated,
              pairingCrashes, hsim, firstFailingStage, structuralOk,
              signalsOkP, nullifierOfP, commitmentOkP, disclosuresOkP,
              disclosuresOfP, freshOkP, stageFailResult, successResult,
              structuralMsg, maxProofAge, Option.getD_some,
              Option.map_some']
            split_ifs <;> (try simp_all) <;> (try omega)

/-! ## Smart-contract simulation module (bundled with `App.tsx`)

The module keeps five localStorage keys — certificates, blocks,
transactions, events and the block-number counter — modelled by
`ContractState`.  An unset counter reads as 1.  Random transaction
hashes, random certificate ids, wall-clock timestamps and random gas
values are oracle inputs; a thrown `REVERT` error is `Except.error`. -/

/-- Certificate status (`'active' | 'revoked' | 'suspended'`). -/
inductive CertStatus where
  | active
  | revoked
  | suspended
  deriving DecidableEq, Repr

instance : Inhabited CertStatus := ⟨.active⟩

/-- String form of a status, for interpolated messages. -/
def CertStatus.toStr : CertStatus → String
  | .active => "active"
  | .revoked => "revoked"
  | .suspended => "suspended"

/-- Certificate stored by the contract module (`OnChainCertificate`).
The embedded ZK proof travels through this module unexamined, so it is
carried in serialized form; `proofHash` is the hash of that serialized
form (`hashString(JSON.stringify(params.proof))`). -/
structure OnChainCertificate where
  id : String
  documentHash : String
  ipfsCid : String
  proofHash : String
  proof : String
  issuer : String
  holder : String
  documentType : String
  documentCategory : String
  metadata : List (String × JVal)
  status : CertStatus
  createdAt : String
  updatedAt : String
  blockNumber : Nat
  transactionHash : String
  deriving Inhabited

/-- Block structure.  Field names follow the source. -/
structure Block where
  number : Nat
  hash : String
  parentHash : String
  timestamp : String
  transactions : List String
  gasUsed : Nat
  gasLimit : Nat
  deriving DecidableEq, Repr, Inhabited

/-- Transaction structure; `sender`/`recipient` model the `from`/`to`
fields (both are reserved words in Lean). -/
structure Transaction where
  hash : String
  sender : String
  recipient : String
  blockNumber : Nat
  timestamp : String
  method : String
  args : List (String × JVal)
  status : String
  gasUsed : Nat
  events : List String
  deriving Inhabited

/-- Contract event, flattened: the source's tagged union becomes an
`eventName` plus an association list of argument values. -/
structure ContractEvent where
  eventName : String
  transactionHash : String
  blockNumber : Nat
  timestamp : String
  logIndex : Nat
  args : List (String × JVal)
  deriving Inhabited

/-- The five localStorage keys of the module, as one record. -/
structure ContractState where
  certificates : List OnChainCertificate
  blocks : List Block
  transactions : List Transaction
  events : List ContractEvent
  blockNumber : Nat

/-- Fresh browser state: empty stores, counter reading as 1. -/
def initialContractState : ContractState :=
  { certificates := []
    blocks := []
    transactions := []
    events := []
    blockNumber := 1 }

/-- Oracle bundling the nondeterministic inputs of one contract call:
the random transaction hash, the random certificate id, the wall clock
as ISO string and in milliseconds, and the two random gas values. -/
structure ContractOracle where
  txHash : String
  certId : String
  nowIso : String
  nowMs : Int
  gasTx : Nat
  gasBlock : Nat

/-- Model of `getNextBlockNumber`: return the counter and increment it. -/
def getNextBlockNumber (s : ContractState) : Nat × ContractState :=
  (s.blockNumber, { s with blockNumber := s.blockNumber + 1 })

/-- Model of `generateBlockHash(blockNumber, transactions)`. -/
def generateBlockHash (blockNumber : Nat) (transactions : List String)
    (nowMs : Int) : String :=
  "0x" ++ hashString ("block_" ++ toString blockNumber ++ "_" ++
    String.intercalate "_" transactions ++ "_" ++ toString nowMs)

/-- All-zero parent hash sentinel of the genesis block. -/
def zeroParentHash : String := "0x" ++ String.mk (List.replicate 64 '0')

/-- Model of `emitEvent`. -/
def emitEvent (event : ContractEvent) (s : ContractState) : ContractState :=
  { s with events := s.events ++ [event] }

/-- Model of `mineBlock(transactions)`. -/
def mineBlock (transactions : List String) (o : ContractOracle)
    (s : ContractState) : Block × ContractState :=
  let (blockNumber, s1) := getNextBlockNumber s
  let parentHash :=
    match s1.blocks.getLast? with
    | some b => b.hash
    | none => zeroParentHash
  let block : Block :=
    { number := blockNumber
      hash := generateBlockHash blockNumber transactions o.nowMs
      parentHash := parentHash
      timestamp := o.nowIso
      transactions := transactions
      gasUsed := o.gasBlock
      gasLimit := 15000000 }
  (block, { s1 with blocks := s1.blocks ++ [block] })

/-- Model of `recordTransaction(from, to, method, args, blockNumber,
eventIds)`. -/
def recordTransaction (sender recipient method : String)
    (args : List (String × JVal)) (blockNumber : Nat)
    (eventIds : List String) (o : ContractOracle) (s : ContractState) :
    Transaction × ContractState :=
  let tx : Transaction :=
    { hash := o.txHash
      sender := sender
      recipient := if recipient = "" then "CertificateRegistry" else recipient
      blockNumber := blockNumber
      timestamp := o.nowIso
      method := method
      args := args
      status := "success"
      gasUsed := o.gasTx
      events := eventIds }
  (tx, { s with transactions := s.transactions ++ [tx] })

/-- Parameters of `issueCertificate`. -/
structure IssueParams where
  documentHash : String
  ipfsCid : String
  proof : String
  issuer : String
  holder : String
  documentType : String
  documentCategory : String
  metadata : List (String × JVal)

/-- Result record of `issueCertificate`. -/
structure IssueResult where
  success : Bool
  certificate : OnChainCertificate
  transaction : Transaction
  block : Block
  events : List ContractEvent
  deriving Inhabited

/-- Model of the contract `issueCertificate`: duplicate active document
hash throws `REVERT`; otherwise the certificate is created (block number
and transaction hash patched in after mining) and appended. -/
def issueCertificate (params : IssueParams) (o : ContractOracle)
    (s : ContractState) : Except String (IssueResult × ContractState) :=
  if (s.certificates.find? fun c =>
      c.documentHash = params.documentHash ∧ c.status = .active).isSome then
    .error "REVERT: Certificate with this hash already exists"
  else
    let proofHash := hashString params.proof
    let cert0 : OnChainCertificate :=
      { id := o.certId
        documentHash := params.documentHash
        ipfsCid := params.ipfsCid
        proofHash := proofHash
        proof := params.proof
        issuer := params.issuer
        holder := params.holder
        documentType := params.documentType
        documentCategory := params.documentCategory
        metadata := params.metadata
        status := .active
        createdAt := o.nowIso
        updatedAt := o.nowIso
        blockNumber := 0
        transactionHash := "" }
    let (tx, s1) := recordTransaction params.issuer "CertificateRegistry"
      "issueCertificate"
      [("documentHash", .str params.documentHash),
       ("ipfsCid", .str params.ipfsCid),
       ("holder", .str params.holder),
       ("documentType", .str params.documentType)] 0 [] o s
    let (block, s2) := mineBlock [tx.hash] o s1
    let cert := { cert0 with blockNumber := block.number,
                             transactionHash := tx.hash }
    let event : ContractEvent :=
      { eventName := "CertificateIssued"
        transactionHash := tx.hash
        blockNumber := block.number
        timestamp := o.nowIso
        logIndex := 0
        args :=
          [("certificateId", .str o.certId),
           ("issuer", .str params.issuer),
           ("holder", .str params.holder),
           ("documentType", .str params.documentType),
           ("documentHash", .str params.documentHash),
           ("ipfsCid", .str params.ipfsCid)] }
    let s3 := emitEvent event s2
    let s4 := { s3 with certificates := s3.certificates ++ [cert] }
    .ok ({ success := true
           certificate := cert
           transaction := tx
           block := block
           events := [event] }, s4)

/-- Result record of `verifyCertificateOnChain`. -/
structure VerifyChainResult where
  valid : Bool
  certificate : Option OnChainCertificate
  message : String
  transaction : Transaction
  events : List ContractEvent

/-- Outcome triple (`valid`, `message`, `proofValid`) of the on-chain
verification lookup. -/
def verifyOutcome (certificate : Option OnChainCertificate)
    (proofJson : String) : Bool × String × Bool :=
  match certificate with
  | none => (false, "Certificate not found in registry", false)
  | some c =>
    match c.status with
    | .revoked => (false, "Certificate has been revoked", false)
    | .suspended => (false, "Certificate is currently suspended", false)
    | .active =>
      if proofJson ≠ "" then
        if hashString proofJson = c.proofHash then
          (true, "Certificate verified successfully", true)
        else (false, "Proof verification failed", false)
      else
        (true, "Certificate exists and is active (no proof provided)", false)

/-- Model of `verifyCertificateOnChain(documentHash, proofJson,
verifier)`: a pure lookup that still mines a transaction, block and
event.  The serialized proof argument is compared by hash against the
stored `proofHash`; an empty string models a missing proof. -/
def verifyCertificateOnChain (documentHash proofJson verifier : String)
    (o : ContractOracle) (s : ContractState) :
    VerifyChainResult × ContractState :=
  let certificate := s.certificates.find? fun c =>
    c.documentHash = documentHash
  let outcome := verifyOutcome certificate proofJson
  let valid := outcome.1
  let message := outcome.2.1
  let _proofValid := outcome.2.2
  let (tx, s1) := recordTransaction verifier "CertificateRegistry"
    "verifyCertificate"
    [("documentHash", .str documentHash),
     ("hasProof", .bool (proofJson ≠ ""))] 0 [] o s
  let (block, s2) := mineBlock [tx.hash] o s1
  let event : ContractEvent :=
    { eventName := "CertificateVerified"
      transactionHash := tx.hash
      blockNumber := block.number
      timestamp := o.nowIso
      logIndex := 0
      args :=
        [("certificateId",
           .str ((certificate.map fun c => c.id).getD "NOT_FOUND")),
         ("verifier", .str verifier),
         ("result", .bool valid),
         ("proofValid", .bool _proofValid)] }
  let s3 := emitEvent event s2
  ({ valid := valid
     certificate := certificate
     message := message
     transaction := tx
     events := [event] }, s3)

/-- Result record of the revoke/suspend/reinstate contract calls. -/
structure MutateResult where
  success : Bool
  transaction : Transaction
  message : String
  events : List ContractEvent

/-- Index of the first certificate with the given document hash. -/
def findCertIndex (s : ContractState) (documentHash : String) :
    Option Nat :=
  s.certificates.findIdx? fun c => c.documentHash = documentHash

/-- Shared tail of the three status-mutating contract calls: write the
updated certificate, then mine the transaction, block and event. -/
def commitStatusChange (idx : Nat) (updated : OnChainCertificate)
    (sender method : String) (args : List (String × JVal))
    (eventName : String) (eventArgs : List (String × JVal))
    (successMessage : String) (o : ContractOracle) (s : ContractState) :
    MutateResult × ContractState :=
  let s0 := { s with certificates := s.certificates.set idx updated }
  let (tx, s1) := recordTransaction sender "CertificateRegistry" method
    args 0 [] o s0
  let (block, s2) := mineBlock [tx.hash] o s1
  let event : ContractEvent :=
    { eventName := eventName
      transactionHash := tx.hash
      blockNumber := block.number
      timestamp := o.nowIso
      logIndex := 0
      args := eventArgs }
  let s3 := emitEvent event s2
  ({ success := true
     transaction := tx
     message := successMessage
     events := [event] }, s3)

/-- Model of `revokeCertificateOnChain`: legal unless the certificate is
missing (`REVERT: Certificate not found`) or already revoked. -/
def revokeCertificateOnChain (documentHash revokedBy reason : String)
    (o : ContractOracle) (s : ContractState) :
    Except String (MutateResult × ContractState) :=
  match findCertIndex s documentHash with
  | none => .error "REVERT: Certificate not found"
  | some idx =>
    let certificate := s.certificates.getD idx default
    if certificate.status = .revoked then
      .error "REVERT: Certificate already revoked"
    else
      .ok (commitStatusChange idx
        { certificate with status := .revoked, updatedAt := o.nowIso }
        revokedBy "revokeCertificate"
        [("documentHash", .str documentHash), ("reason", .str reason)]
        "CertificateRevoked"
        [("certificateId", .str certificate.id),
         ("revokedBy", .str revokedBy),
         ("reason", .str reason)]
        "Certificate revoked successfully" o s)

/-- Model of `suspendCertificateOnChain`: legal only from `active`. -/
def suspendCertificateOnChain (documentHash suspendedBy reason : String)
    (o : ContractOracle) (s : ContractState) :
    Except String (MutateResult × ContractState) :=
  match findCertIndex s documentHash with
  | none => .error "REVERT: Certificate not found"
  | some idx =>
    let certificate := s.certificates.getD idx default
    if certificate.status ≠ .active then
      .error ("REVERT: Cannot suspend certificate with status: " ++
        certificate.status.toStr)
    else
      .ok (commitStatusChange idx
        { certificate with status := .suspended, updatedAt := o.nowIso }
        suspendedBy "suspendCertificate"
        [("documentHash", .str documentHash), ("reason", .str reason)]
        "CertificateSuspended"
        [("certificateId", .str certificate.id),
         ("suspendedBy", .str suspendedBy),
         ("reason", .str reason)]
        "Certificate suspended successfully" o s)

/-- Model of `reinstateCertificateOnChain`: legal only from `suspended`. -/
def reinstateCertificateOnChain (documentHash reinstatedBy reason : String)
    (o : ContractOracle) (s : ContractState) :
    Except String (MutateResult × ContractState) :=
  match findCertIndex s documentHash with
  | none => .error "REVERT: Certificate not found"
  | some idx =>
    let certificate := s.certificates.getD idx default
    if certificate.status ≠ .suspended then
      .error "REVERT: Can only reinstate suspended certificates"
    else
      .ok (commitStatusChange idx
        { certificate with status := .active, updatedAt := o.nowIso }
        reinstatedBy "reinstateCertificate"
        [("documentHash", .str documentHash), ("reason", .str reason)]
        "CertificateReinstated"
        [("certificateId", .str certificate.id),
         ("reinstatedBy", .str reinstatedBy),
         ("reason", .str reason)]
        "Certificate reinstated successfully" o s)

/-- One successful contract call, as a relation between pre- and
post-state. -/
inductive ContractStep : ContractState → ContractState → Prop where
  | issue (params : IssueParams) (o : ContractOracle) (r : IssueResult)
      {s s' : ContractState}
      (h : issueCertificate params o s = .ok (r, s')) : ContractStep s s'
  | verify (documentHash proofJson verifier : String) (o : ContractOracle)
      {s s' : ContractState} (r : VerifyChainResult)
      (h : verifyCertificateOnChain documentHash proofJson verifier o s =
        (r, s')) : ContractStep s s'
  | revoke (documentHash revokedBy reason : String) (o : ContractOracle)
      (r : MutateResult) {s s' : ContractState}
      (h : revokeCertificateOnChain documentHash revokedBy reason o s =
        .ok (r, s')) : ContractStep s s'
  | suspend (documentHash suspendedBy reason : String) (o : ContractOracle)
      (r : MutateResult) {s s' : ContractState}
      (h : suspendCertificateOnChain documentHash suspendedBy reason o s =
        .ok (r, s')) : ContractStep s s'
  | reinstate (documentHash reinstatedBy reason : String)
      (o : ContractOracle) (r : MutateResult) {s s' : ContractState}
      (h : reinstateCertificateOnChain documentHash reinstatedBy reason o s =
        .ok (r, s')) : ContractStep s s'

/-- States reachable from a fresh browser state by contract calls. -/
inductive ContractReachable : ContractState → Prop where
  | init : ContractReachable initialContractState
  | step {s s' : ContractState} (hr : ContractReachable s)
      (hs : ContractStep s s') : ContractReachable s'

/-! ## Simulated blockchain module (`src/lib/simulation/blockchain.ts`)

This module keeps a flat list of certificate records plus verification
logs and a block-number counter.  Its `revoke`/`suspend`/`reinstate`
functions return typed `{success, transactionHash, message}` results and
contain no `throw`; `storeCertificate` throws on a duplicate active
hash. -/

/-- Status-history entry (`StatusChange`); `fromStatus`/`toStatus` model
the `from`/`to` string fields. -/
structure SimStatusChange where
  fromStatus : String
  toStatus : String
  changedBy : String
  reason : String
  timestamp : String
  transactionHash : String

/-- Certificate record of the simulated blockchain
(`CertificateRecord`).  As in the contract module, the embedded proof is
carried in serialized form and `proofHash` hashes that form. -/
structure CertificateRecord where
  id : String
  hash : String
  cid : String
  proof : String
  proofHash : String
  issuer : String
  issuedTo : String
  certificateType : String
  metadata : List (String × JVal)
  transactionHash : String
  blockNumber : Nat
  timestamp : String
  status : CertStatus
  statusHistory : List SimStatusChange
  deriving Inhabited

/-- Verification log entry. -/
structure VerificationLog where
  id : String
  certificateHash : String
  verifier : String
  timestamp : String
  result : String
  details : String

/-- The localStorage keys of the module: the record list, the
verification logs and the block-number counter (unset reads as 1). -/
structure SimState where
  chain : List CertificateRecord
  logs : List VerificationLog
  counter : Nat

/-- Fresh browser state for the simulated blockchain. -/
def initialSimState : SimState :=
  { chain := [], logs := [], counter := 1 }

/-- Oracle for one simulated-blockchain call: random transaction hash,
random record id, random log id and the wall clock as ISO string. -/
structure SimOracle where
  txHash : String
  recordId : String
  logId : String
  nowIso : String

/-- Parameters of `storeCertificate`. -/
structure StoreParams where
  hash : String
  cid : String
  proof : String
  issuer : String
  issuedTo : String
  certificateType : String
  metadata : List (String × JVal)

/-- Result record of `storeCertificate`. -/
structure StoreResult where
  success : Bool
  record : CertificateRecord
  transactionHash : String

/-- The record minted by `storeCertificate`. -/
def newCertificateRecord (params : StoreParams) (o : SimOracle)
    (blockNumber : Nat) : CertificateRecord :=
  { id := o.recordId
    hash := params.hash
    cid := params.cid
    proof := params.proof
    proofHash := hashString params.proof
    issuer := params.issuer
    issuedTo := params.issuedTo
    certificateType := params.certificateType
    metadata := params.metadata
    transactionHash := o.txHash
    blockNumber := blockNumber
    timestamp := o.nowIso
    status := .active
    statusHistory :=
      [{ fromStatus := "none"
         toStatus := "active"
         changedBy := params.issuer
         reason := "Initial issuance"
         timestamp := o.nowIso
         transactionHash := o.txHash }] }

/-- Model of `storeCertificate`: throws on a duplicate active hash,
otherwise appends a fresh record in `active` state whose status history
has exactly the initial-issuance entry. -/
def storeCertificate (params : StoreParams) (o : SimOracle) (s : SimState) :
    Except String (StoreResult × SimState) :=
  if (s.chain.find? fun r =>
      r.hash = params.hash ∧ r.status = .active).isSome then
    .error "Certificate with this hash already exists"
  else
    let record := newCertificateRecord params o s.counter
    .ok ({ success := true, record := record, transactionHash := o.txHash },
      { s with chain := s.chain ++ [record], counter := s.counter + 1 })

/-- Typed failure/success result of the three status-changing calls. -/
structure SimMutateResult where
  success : Bool
  transactionHash : String
  message : String
  deriving DecidableEq, Repr

/-- Index of the first record with the given hash. -/
def findRecordIndex (s : SimState) (hash : String) : Option Nat :=
  s.chain.findIdx? fun r => r.hash = hash

/-- Model of `revokeCertificate`: typed failures for a missing record and
for a record already revoked; otherwise the record's status becomes
`revoked` and one history entry is appended. -/
def revokeCertificate (hash revokedBy reason : String) (o : SimOracle)
    (s : SimState) : SimMutateResult × SimState :=
  match findRecordIndex s hash with
  | none =>
    ({ success := false, transactionHash := "",
       message := "Certificate not found" }, s)
  | some idx =>
    let record := s.chain.getD idx default
    if record.status = .revoked then
      ({ success := false, transactionHash := "",
         message := "Certificate already revoked" }, s)
    else
      let updated := { record with
        status := .revoked
        statusHistory := record.statusHistory ++
          [{ fromStatus := record.status.toStr
             toStatus := "revoked"
             changedBy := revokedBy
             reason := reason
             timestamp := o.nowIso
             transactionHash := o.txHash }] }
      ({ success := true, transactionHash := o.txHash,
         message := "Certificate revoked successfully" },
        { s with chain := s.chain.set idx updated })

/-- Model of `suspendCertificate`: typed failures for a missing record
and for a record that is not active. -/
def suspendCertificate (hash suspendedBy reason : String) (o : SimOracle)
    (s : SimState) : SimMutateResult × SimState :=
  match findRecordIndex s hash with
  | none =>
    ({ success := false, transactionHash := "",
       message := "Certificate not found" }, s)
  | some idx =>
    let record := s.chain.getD idx default
    if record.status ≠ .active then
      ({ success := false, transactionHash := "",
         message := "Cannot suspend certificate with status: " ++
           record.status.toStr }, s)
    else
      let updated := { record with
        status := .suspended
        statusHistory := record.statusHistory ++
          [{ fromStatus := record.status.toStr
             toStatus := "suspended"
             changedBy := suspendedBy
             reason := reason
             timestamp := o.nowIso
             transactionHash := o.txHash }] }
      ({ success := true, transactionHash := o.txHash,
         message := "Certificate suspended successfully" },
        { s with chain := s.chain.set idx updated })

/-- Model of `reinstateCertificate`: typed failures for a missing record
and for a record that is not suspended; success returns the record to
`active`. -/
def reinstateCertificate (hash reinstatedBy reason : String) (o : SimOracle)
    (s : SimState) : SimMutateResult × SimState :=
  match findRecordIndex s hash with
  | none =>
    ({ success := false, transactionHash := "",
       message := "Certificate not found" }, s)
  | some idx =>
    let record := s.chain.getD idx default
    if record.status ≠ .suspended then
      ({ success := false, transactionHash := "",
         message := "Can only reinstate suspended certificates" }, s)
    else
      let updated := { record with
        status := .active
        statusHistory := record.statusHistory ++
          [{ fromStatus := record.status.toStr
             toStatus := "active"
             changedBy := reinstatedBy
             reason := reason
             timestamp := o.nowIso
             transactionHash := o.txHash }] }
      ({ success := true, transactionHash := o.txHash,
         message := "Certificate reinstated successfully" },
        { s with chain := s.chain.set idx updated })

/-! ## Concrete proofs used as witnesses and counterexamples -/

/-- Well-formed concrete proof: passes every verifier stage when checked
at clock 0 against an empty registry. -/
def passingProof : ZKProof :=
  { proof := some
      { pi_a := ["0x1", "0x1", "1"]
        pi_b := [["0x1", "0x1"], ["0x1", "0x1"], ["1", "0"]]
        pi_c := ["0x1", "0x1", "1"]
        protocol := "groth16"
        curve := "bn128" }
    publicSignals := some
      ["0x0000000000000000000000000000000000000000000000000000000000000000",
       "0xabc"]
    metadata := some
      { circuitType := "document_authenticity"
        generatedAt := 0
        version := "2.0.0"
        disclosures := some [] } }

/-- Concrete proof whose `pi_b` rows all pass the point-format check but
which has only two rows: reading `pi_b[2][0]` throws in the source. -/
def shortPiBProof : ZKProof :=
  { proof := some
      { pi_a := ["0x1", "0x1", "1"]
        pi_b := [["0x1", "0x1"], ["0x1", "0x1"]]
        pi_c := ["0x1", "0x1", "1"]
        protocol := "groth16"
        curve := "bn128" }
    publicSignals := some
      ["0x0000000000000000000000000000000000000000000000000000000000000000",
       "0xabc"]
    metadata := some
      { circuitType := "document_authenticity"
        generatedAt := 0
        version := "2.0.0"
        disclosures := some [] } }

/-- The `generatedAt` clock value of a proof (0 when metadata is
absent). -/
def generatedAtOf (p : ZKProof) : Int :=
  (p.metadata.map fun md => md.generatedAt).getD 0

/-! ## Helper lemmas about the verifier cascade -/

theorem structuralOk_no_crash {p : ZKProof} (h : structuralOk p = true) :
    pairingCrashes p = false := by
  unfold structuralOk at h
  unfold pairingCrashes
  obtain ⟨op, ops, omd⟩ := p
  cases op <;> cases ops <;> cases omd <;> simp_all
  cases hsim : simulatePairingCheck _ <;> simp_all

theorem firstFailingStage_none_parts {p : ZKProof} {reg : List String}
    {now : Int} (h : firstFailingStage p reg now = none) :
    structuralOk p = true ∧ signalsOkP p = true ∧
    isNullifierUsed reg (nullifierOfP p) = false ∧
    commitmentOkP p = true ∧ disclosuresOkP p = true ∧
    freshOkP p now = true := by
  unfold firstFailingStage at h
  split_ifs at h <;> simp_all

theorem cascadeActual_valid {p : ZKProof} {mark : Bool} {reg : List String}
    {now : Int} (h : (cascadeActual p mark reg now).1.valid = true) :
    pairingCrashes p = false ∧ firstFailingStage p reg now = none ∧
    (cascadeActual p mark reg now).2 =
      (if mark then saveNullifier reg (nullifierOfP p) else reg) := by
  by_cases hcr : pairingCrashes p = true
  · simp [cascadeActual, hcr, failResult] at h
  · simp only [Bool.not_eq_true] at hcr
    cases hf : firstFailingStage p reg now with
    | some st =>
      rw [cascadeActual, cascadeStated] at h
      simp only [hcr, Bool.false_eq_true, if_false, hf] at h
      cases st <;> simp [stageFailResult, failResult] at h
    | none =>
      refine ⟨hcr, rfl, ?_⟩
      rw [cascadeActual, cascadeStated]
      simp [hcr, hf]

theorem saveNullifier_used (reg : List String) (n : String) :
    isNullifierUsed (saveNullifier reg n) n = true := by
  unfold saveNullifier isNullifierUsed
  split_ifs with hc
  · exact hc
  · simp

theorem saveNullifier_fresh {reg : List String} {n : String}
    (h : isNullifierUsed reg n = false) : saveNullifier reg n = reg ++ [n] := by
  unfold isNullifierUsed at h
  have h' : n ∉ reg := by simpa using h
  unfold saveNullifier
  simp [h']

/-! ## Claim theorems about the verifier -/

/-- C1: if `verifyProof` accepts a proof with `markNullifierUsed = true`,
then a second `verifyProof` call on the identical proof with
`markNullifierUsed = true`, run against the registry state left by the
first call, is rejected with the nullifier-reuse message — the same
nullifier is never accepted twice.  The claim holds for any document
hash and any later clock value of the second call. -/
theorem nullifier_single_use (p : ZKProof) (dh dh2 : String)
    (reg : List String) (now now2 : Int)
    (h : (verifyProof p dh true reg now).1.valid = true) :
    (verifyProof p dh2 true (verifyProof p dh true reg now).2 now2).1.valid
        = false ∧
    (verifyProof p dh2 true (verifyProof p dh true reg now).2 now2).1.message
        = "Proof has already been used (nullifier reuse detected)" := by
  have e1 := verifyProof_eq_cascadeActual p dh true reg now
  rw [e1] at h
  obtain ⟨hcr, hnone, hreg⟩ := cascadeActual_valid h
  obtain ⟨hst, hsig, _, _, _, _⟩ := firstFailingStage_none_parts hnone
  have hreg2 : (verifyProof p dh true reg now).2 =
      saveNullifier reg (nullifierOfP p) := by
    rw [e1, hreg]
    simp
  rw [hreg2, verifyProof_eq_cascadeActual]
  have hused := saveNullifier_used reg (nullifierOfP p)
  have hf2 : firstFailingStage p (saveNullifier reg (nullifierOfP p)) now2 =
      some .nullifier := by
    unfold firstFailingStage
    simp [hst, hsig, hused]
  rw [cascadeActual, cascadeStated]
  simp [hcr, hf2, stageFailResult, failResult]

/-- Witness for C1: the concrete well-formed proof is accepted once and
rejected on replay. -/
theorem nullifier_single_use_witness :
    (verifyProof passingProof "doc" true [] 0).1.valid = true ∧
    ((verifyProof passingProof "doc" true
        (verifyProof passingProof "doc" true [] 0).2 0).1.valid = false ∧
      (verifyProof passingProof "doc" true
        (verifyProof passingProof "doc" true [] 0).2 0).1.message =
        "Proof has already been used (nullifier reuse detected)") :=
  ⟨by decide, nullifier_single_use passingProof "doc" "doc" [] 0 0 (by decide)⟩

/-- C2 (amended): `verifyProof` is the short-circuiting cascade of the
six spec stages — structural validity, public-signal validity, nullifier
uniqueness, commitment plausibility, disclosure well-formedness,
freshness — in that fixed order, and different failing stages produce
different messages; except that a proof whose `pi_b` rows pass the
point-format check but number fewer than three crashes the structural
stage, producing the generic caught-error result instead of a
stage-identifying message. -/
theorem verification_stage_cascade :
    (∀ (p : ZKProof) (dh : String) (mark : Bool) (reg : List String)
        (now : Int),
      verifyProof p dh mark reg now = cascadeActual p mark reg now) ∧
    (∀ (st1 st2 : VStage) (p : ZKProof) (ts : String),
      (stageFailResult st1 p ts).message = (stageFailResult st2 p ts).message →
      st1 = st2) := by
  constructor
  · exact verifyProof_eq_cascadeActual
  · intro st1 st2 p ts h
    cases st1 <;> cases st2 <;>
      simp_all [stageFailResult, failResult, structuralMsg] <;>
      split_ifs at h <;> simp_all

/-- Witness for C2 (amended): the cascade equation at a concrete input,
and stage-message injectivity applied at a concrete pair of stages. -/
theorem verification_stage_cascade_witness :
    verifyProof passingProof "doc" true [] 0 =
      cascadeActual passingProof true [] 0 ∧
    VStage.nullifier = VStage.nullifier :=
  ⟨verification_stage_cascade.1 passingProof "doc" true [] 0,
    verification_stage_cascade.2 .nullifier .nullifier passingProof "0" rfl⟩

/-- Counterexample for C2 as stated: on the two-row `pi_b` proof the
result is the generic verification-error message, which differs from the
message of the stage cascade and identifies none of the six stages. -/
theorem verification_stage_cascade_counterexample :
    (verifyProof shortPiBProof "h" true [] 0).1.valid = false ∧
    (verifyProof shortPiBProof "h" true [] 0).1.message =
      "Verification error: " ++ undefinedReadMsg ∧
    (verifyProof shortPiBProof "h" true [] 0).1.message ≠
      (cascadeStated shortPiBProof true [] 0).1.message ∧
    (verifyProof shortPiBProof "h" true [] 0).1.message ∉
      ["Invalid proof structure", "Pairing check failed - proof is invalid",
       "Public signals verification failed",
       "Proof has already been used (nullifier reuse detected)",
       "Commitment verification failed",
       "Disclosed attributes verification failed",
       "Proof has expired (older than 24 hours)"] := by
  refine ⟨?_, ?_, ?_, ?_⟩ <;> decide

/-- C3: the nullifier registry is mutated precisely by a fully valid
verification with `markNullifierUsed = true`, in which case the (fresh)
nullifier is appended; in every other case the registry is returned
unchanged. -/
theorem registry_mutation_iff (p : ZKProof) (dh : String) (mark : Bool)
    (reg : List String) (now : Int) :
    ((verifyProof p dh mark reg now).1.valid = true ∧ mark = true →
      (verifyProof p dh mark reg now).2 = reg ++ [nullifierOfP p] ∧
      (verifyProof p dh mark reg now).2 ≠ reg) ∧
    (¬ ((verifyProof p dh mark reg now).1.valid = true ∧ mark = true) →
      (verifyProof p dh mark reg now).2 = reg) := by
  have e := verifyProof_eq_cascadeActual p dh mark reg now
  constructor
  · rintro ⟨hv, hm⟩
    subst hm
    rw [e] at hv ⊢
    obtain ⟨hcr, hnone, hreg⟩ := cascadeActual_valid hv
    obtain ⟨_, _, hnul, _, _, _⟩ := firstFailingStage_none_parts hnone
    rw [hreg, if_pos rfl, saveNullifier_fresh hnul]
    refine ⟨rfl, ?_⟩
    intro hcontra
    have := congrArg List.length hcontra
    simp at this
  · intro hno
    rw [e] at hno ⊢
    by_cases hcr : pairingCrashes p = true
    · simp [cascadeActual, hcr]
    · simp only [Bool.not_eq_true] at hcr
      cases hf : firstFailingStage p reg now with
      | some st =>
        rw [cascadeActual, cascadeStated]
        simp [hcr, hf]
      | none =>
        have hv : (cascadeActual p mark reg now).1.valid = true := by
          rw [cascadeActual, cascadeStated]
          simp [hcr, hf, successResult]
        have hm : mark = false := by
          cases hmark : mark
          · rfl
          · exact absurd ⟨hv, hmark⟩ hno
        subst hm
        rw [cascadeActual, cascadeStated]
        simp [hcr, hf]

/-- Witness for C3: the concrete accepted proof appends its nullifier. -/
theorem registry_mutation_iff_witness :
    ((verifyProof passingProof "doc" true [] 0).1.valid = true ∧
      true = true) ∧
    (verifyProof passingProof "doc" true [] 0).2 =
      [] ++ [nullifierOfP passingProof] :=
  ⟨⟨by decide, rfl⟩,
    ((registry_mutation_iff passingProof "doc" true [] 0).1
      ⟨by decide, rfl⟩).1⟩

/-- C8: for a proof passing every other stage, verification at a clock
more than 24 hours past `generatedAt` is rejected with the
expiry-specific message (distinct from every other failure message),
while at a clock within the window the proof verifies as fresh. -/
theorem proof_freshness_window (p : ZKProof) (dh : String) (mark : Bool)
    (reg : List String) (now : Int)
    (hst : structuralOk p = true) (hsig : signalsOkP p = true)
    (hnul : isNullifierUsed reg (nullifierOfP p) = false)
    (hcom : commitmentOkP p = true) (hdis : disclosuresOkP p = true) :
    (maxProofAge < now - generatedAtOf p →
      (verifyProof p dh mark reg now).1.valid = false ∧
      (verifyProof p dh mark reg now).1.message =
        "Proof has expired (older than 24 hours)") ∧
    (now - generatedAtOf p ≤ maxProofAge →
      (verifyProof p dh mark reg now).1.valid = true) ∧
    "Proof has expired (older than 24 hours)" ∉
      ["Invalid proof structure", "Pairing check failed - proof is invalid",
       "Public signals verification failed",
       "Proof has already been used (nullifier reuse detected)",
       "Commitment verification failed",
       "Disclosed attributes verification failed"] := by
  have e := verifyProof_eq_cascadeActual p dh mark reg now
  have hcr := structuralOk_no_crash hst
  refine ⟨?_, ?_, by decide⟩
  · intro hold
    have hfr : freshOkP p now = false := by
      unfold freshOkP
      unfold generatedAtOf at hold
      simp only [decide_eq_false_iff_not, not_le]
      exact hold
    have hf : firstFailingStage p reg now = some .freshness := by
      unfold firstFailingStage
      simp [hst, hsig, hnul, hcom, hdis, hfr]
    rw [e, cascadeActual, cascadeStated]
    simp [hcr, hf, stageFailResult, failResult]
  · intro hyoung
    have hfr : freshOkP p now = true := by
      unfold freshOkP
      unfold generatedAtOf at hyoung
      simpa using hyoung
    have hf : firstFailingStage p reg now = none := by
      unfold firstFailingStage
      simp [hst, hsig, hnul, hcom, hdis, hfr]
    rw [e, cascadeActual, cascadeStated]
    simp [hcr, hf, successResult]

/-- Witness for C8: the concrete proof generated at clock 0 is Expired
25 hours later and fresh 1 hour later. -/
theorem proof_freshness_window_witness :
    ((verifyProof passingProof "doc" true [] 90000000).1.valid = false ∧
      (verifyProof passingProof "doc" true [] 90000000).1.message =
        "Proof has expired (older than 24 hours)") ∧
    (verifyProof passingProof "doc" true [] 3600000).1.valid = true :=
  ⟨(proof_freshness_window passingProof "doc" true [] 90000000
      (by decide) (by decide) (by decide) (by decide) (by decide)).1
      (by decide),
    ((proof_freshness_window passingProof "doc" true [] 3600000
      (by decide) (by decide) (by decide) (by decide) (by decide)).2.1
      (by decide))⟩

/-! ## Block-chain invariants of the contract module -/

/-- Hash of the last block, or the genesis sentinel for an empty list. -/
def lastHashOr (bs : List Block) : String :=
  (bs.getLast?.map Block.hash).getD zeroParentHash

/-- Checks that a block list starting under the given parent hash and
number is correctly chained: consecutive numbers, each block's
`parentHash` equal to its predecessor's `hash`. -/
def chainOkFrom (parentHash : String) (n : Nat) : List Block → Bool
  | [] => true
  | b :: rest =>
    decide (b.number = n) && decide (b.parentHash = parentHash) &&
      chainOkFrom b.hash (n + 1) rest

/-- Stored block list well-formedness: the first block has number 1 and
the all-zero parent sentinel, numbers increase by one with no gaps, and
every later block's `parentHash` is its predecessor's `hash`. -/
def chainOk (blocks : List Block) : Bool :=
  chainOkFrom zeroParentHash 1 blocks

theorem chainOkFrom_append {bs : List Block} {b : Block} {ph : String}
    {n : Nat} (h : chainOkFrom ph n bs = true) (h1 : b.number = n + bs.length)
    (h2 : b.parentHash = (bs.getLast?.map Block.hash).getD ph) :
    chainOkFrom ph n (bs ++ [b]) = true := by
  induction bs generalizing ph n with
  | nil =>
    simp only [List.getLast?_nil, Option.map_none', Option.getD_none] at h2
    simp only [List.length_nil, Nat.add_zero] at h1
    simp [chainOkFrom, h2, h1]
  | cons hd tl ih =>
    simp only [chainOkFrom, Bool.and_eq_true, decide_eq_true_eq] at h
    obtain ⟨⟨hn, hp⟩, hrest⟩ := h
    have h2' : b.parentHash = (tl.getLast?.map Block.hash).getD hd.hash := by
      cases tl with
      | nil => simpa using h2
      | cons x xs => simpa [List.getLast?_cons_cons] using h2
    have h1' : b.number = (n + 1) + tl.length := by
      simp at h1
      omega
    simp only [List.cons_append, chainOkFrom, Bool.and_eq_true,
      decide_eq_true_eq]
    exact ⟨⟨hn, hp⟩, ih hrest h1' h2'⟩

theorem chainOk_snoc {bs : List Block} {b : Block}
    (h : chainOk bs = true) (h1 : b.number = bs.length + 1)
    (h2 : b.parentHash = lastHashOr bs) : chainOk (bs ++ [b]) = true := by
  exact chainOkFrom_append h (by omega) h2

/-- State invariant tying the counter to the block list. -/
def ChainInv (s : ContractState) : Prop :=
  chainOk s.blocks = true ∧ s.blockNumber = s.blocks.length + 1

/-- Shape of a successful `issueCertificate` call: one block mined
containing exactly the one minted transaction, counter bumped, and the
transaction recorded with `blockNumber = 0`. -/
theorem issue_ok_shape {params : IssueParams} {o : ContractOracle}
    {s s' : ContractState} {r : IssueResult}
    (h : issueCertificate params o s = .ok (r, s')) :
    s'.blocks = s.blocks ++ [r.block] ∧
    r.block.number = s.blockNumber ∧
    r.block.parentHash = lastHashOr s.blocks ∧
    r.block.transactions = [r.transaction.hash] ∧
    s'.blockNumber = s.blockNumber + 1 ∧
    s'.transactions = s.transactions ++ [r.transaction] ∧
    r.transaction.blockNumber = 0 ∧
    s'.certificates = s.certificates ++ [r.certificate] := by
  unfold issueCertificate at h
  split_ifs at h
  simp only [recordTransaction, mineBlock, getNextBlockNumber, emitEvent,
    Except.ok.injEq, Prod.mk.injEq] at h
  obtain ⟨hr, hs⟩ := h
  subst hr
  subst hs
  simp only [lastHashOr]
  cases hL : s.blocks.getLast? <;> simp [hL]

/-- Shape of a successful `verifyCertificateOnChain` call: the
certificate list is untouched; one block is mined containing exactly the
one minted transaction, which is recorded with `blockNumber = 0`. -/
theorem verify_shape (dh pj v : String) (o : ContractOracle)
    (s : ContractState) :
    ∃ b : Block,
      (verifyCertificateOnChain dh pj v o s).2.blocks = s.blocks ++ [b] ∧
      b.number = s.blockNumber ∧
      b.parentHash = lastHashOr s.blocks ∧
      b.transactions =
        [(verifyCertificateOnChain dh pj v o s).1.transaction.hash] ∧
      (verifyCertificateOnChain dh pj v o s).2.blockNumber =
        s.blockNumber + 1 ∧
      (verifyCertificateOnChain dh pj v o s).2.transactions =
        s.transactions ++ [(verifyCertificateOnChain dh pj v o s).1.transaction] ∧
      (verifyCertificateOnChain dh pj v o s).1.transaction.blockNumber = 0 ∧
      (verifyCertificateOnChain dh pj v o s).2.certificates =
        s.certificates := by
  refine ⟨_, rfl, rfl, ?_, rfl, rfl, rfl, rfl, rfl⟩
  simp only [lastHashOr]
  cases hL : s.blocks.getLast? <;> simp [hL]

/-- Shape of `commitStatusChange`, the shared tail of the three
status-mutating contract calls. -/
theorem commitStatusChange_shape (idx : Nat) (u : OnChainCertificate)
    (sender method : String) (args : List (String × JVal)) (en : String)
    (ea : List (String × JVal)) (msg : String) (o : ContractOracle)
    (s : ContractState) :
    ∃ b : Block,
      (commitStatusChange idx u sender method args en ea msg o s).2.blocks =
        s.blocks ++ [b] ∧
      b.number = s.blockNumber ∧
      b.parentHash = lastHashOr s.blocks ∧
      b.transactions =
        [(commitStatusChange idx u sender method args en ea msg o s).1.transaction.hash] ∧
      (commitStatusChange idx u sender method args en ea msg o s).2.blockNumber =
        s.blockNumber + 1 ∧
      (commitStatusChange idx u sender method args en ea msg o s).2.transactions =
        s.transactions ++
          [(commitStatusChange idx u sender method args en ea msg o s).1.transaction] ∧
      (commitStatusChange idx u sender method args en ea msg o s).1.transaction.blockNumber = 0 ∧
      (commitStatusChange idx u sender method args en ea msg o s).2.certificates =
        s.certificates.set idx u ∧
      (commitStatusChange idx u sender method args en ea msg o s).1.success = true ∧
      (commitStatusChange idx u sender method args en ea msg o s).1.message = msg := by
  refine ⟨_, rfl, rfl, ?_, rfl, rfl, rfl, rfl, rfl, rfl, rfl⟩
  simp only [lastHashOr]
  cases hL : s.blocks.getLast? <;> simp [hL]

/-- A successful revoke call: the target exists, is not revoked, and the
state change is `commitStatusChange` at its index with status `revoked`. -/
theorem revoke_ok_shape {dh rb rs : String} {o : ContractOracle}
    {s s' : ContractState} {res : MutateResult}
    (h : revokeCertificateOnChain dh rb rs o s = .ok (res, s')) :
    ∃ idx, findCertIndex s dh = some idx ∧
      (s.certificates.getD idx default).status ≠ .revoked ∧
      (res, s') = commitStatusChange idx
        { s.certificates.getD idx default with
            status := .revoked, updatedAt := o.nowIso }
        rb "revokeCertificate"
        [("documentHash", .str dh), ("reason", .str rs)]
        "CertificateRevoked"
        [("certificateId", .str (s.certificates.getD idx default).id),
         ("revokedBy", .str rb), ("reason", .str rs)]
        "Certificate revoked successfully" o s := by
  unfold revokeCertificateOnChain at h
  cases hf : findCertIndex s dh with
  | none => rw [hf] at h; simp at h
  | some idx =>
    rw [hf] at h
    dsimp only at h
    split_ifs at h with hst
    simp only [Except.ok.injEq] at h
    refine ⟨idx, rfl, hst, ?_⟩
    dsimp only
    exact h.symm

/-- A successful suspend call, analogously. -/
theorem suspend_ok_shape {dh sb rs : String} {o : ContractOracle}
    {s s' : ContractState} {res : MutateResult}
    (h : suspendCertificateOnChain dh sb rs o s = .ok (res, s')) :
    ∃ idx, findCertIndex s dh = some idx ∧
      (s.certificates.getD idx default).status = .active ∧
      (res, s') = commitStatusChange idx
        { s.certificates.getD idx default with
            status := .suspended, updatedAt := o.nowIso }
        sb "suspendCertificate"
        [("documentHash", .str dh), ("reason", .str rs)]
        "CertificateSuspended"
        [("certificateId", .str (s.certificates.getD idx default).id),
         ("suspendedBy", .str sb), ("reason", .str rs)]
        "Certificate suspended successfully" o s := by
  unfold suspendCertificateOnChain at h
  cases hf : findCertIndex s dh with
  | none => rw [hf] at h; simp at h
  | some idx =>
    rw [hf] at h
    dsimp only at h
    split_ifs at h with hst
    rw [not_not] at hst
    simp only [Except.ok.injEq] at h
    refine ⟨idx, rfl, hst, ?_⟩
    dsimp only
    exact h.symm

/-- A successful reinstate call, analogously: the record returns to
`active`. -/
theorem reinstate_ok_shape {dh rb rs : String} {o : ContractOracle}
    {s s' : ContractState} {res : MutateResult}
    (h : reinstateCertificateOnChain dh rb rs o s = .ok (res, s')) :
    ∃ idx, findCertIndex s dh = some idx ∧
      (s.certificates.getD idx default).status = .suspended ∧
      (res, s') = commitStatusChange idx
        { s.certificates.getD idx default with
            status := .active, updatedAt := o.nowIso }
        rb "reinstateCertificate"
        [("documentHash", .str dh), ("reason", .str rs)]
        "CertificateReinstated"
        [("certificateId", .str (s.certificates.getD idx default).id),
         ("reinstatedBy", .str rb), ("reason", .str rs)]
        "Certificate reinstated successfully" o s := by
  unfold reinstateCertificateOnChain at h
  cases hf : findCertIndex s dh with
  | none => rw [hf] at h; simp at h
  | some idx =>
    rw [hf] at h
    dsimp only at h
    split_ifs at h with hst
    rw [not_not] at hst
    simp only [Except.ok.injEq] at h
    refine ⟨idx, rfl, hst, ?_⟩
    dsimp only
    exact h.symm

theorem findCertIndex_lt {s : ContractState} {dh : String} {idx : Nat}
    (h : findCertIndex s dh = some idx) : idx < s.certificates.length :=
  (List.findIdx?_eq_some_iff_getElem.mp h).1

theorem get_append_of_eq {α : Type} {l1 l2 : List α} {x : α}
    (h : l2 = l1 ++ [x]) (j : Nat) (h1 : j < l1.length) (h2 : j < l2.length) :
    l2.get ⟨j, h2⟩ = l1.get ⟨j, h1⟩ := by
  subst h
  simp [List.getElem_append_left h1]

theorem get_set_of_eq {α : Type} {l1 l2 : List α} {i : Nat} {u : α}
    (h : l2 = l1.set i u) (j : Nat) (h1 : j < l1.length) (h2 : j < l2.length)
    (hne : j ≠ i) : l2.get ⟨j, h2⟩ = l1.get ⟨j, h1⟩ := by
  subst h
  simp [List.getElem_set_ne (Ne.symm hne)]

theorem getD_eq_get {α : Type} [Inhabited α] {l : List α} {i : Nat}
    (h : i < l.length) : l.getD i default = l.get ⟨i, h⟩ := by
  simp [List.getD_eq_getElem?_getD, List.getElem?_eq_getElem h]

/-- Transaction-record invariant: every stored transaction carries
`blockNumber = 0`. -/
def TxInv (s : ContractState) : Prop :=
  ∀ tx ∈ s.transactions, tx.blockNumber = 0

theorem chainInv_initial : ChainInv initialContractState := ⟨rfl, rfl⟩

theorem chainInv_of_mined {s s' : ContractState} {b : Block}
    (hb : s'.blocks = s.blocks ++ [b]) (hn : b.number = s.blockNumber)
    (hp : b.parentHash = lastHashOr s.blocks)
    (hc : s'.blockNumber = s.blockNumber + 1) (hi : ChainInv s) :
    ChainInv s' := by
  obtain ⟨hok, hctr⟩ := hi
  constructor
  · rw [hb]
    exact chainOk_snoc hok (by rw [hn, hctr]) hp
  · rw [hb, hc, hctr]
    simp

theorem txInv_of_appended {s s' : ContractState} {tx : Transaction}
    (ht : s'.transactions = s.transactions ++ [tx])
    (h0 : tx.blockNumber = 0) (hi : TxInv s) : TxInv s' := by
  intro t hmem
  rw [ht] at hmem
  rcases List.mem_append.mp hmem with hmem | hmem
  · exact hi t hmem
  · simp at hmem
    rw [hmem, h0]

theorem contractStep_preserves {s s' : ContractState}
    (hstep : ContractStep s s') (hi : ChainInv s ∧ TxInv s) :
    ChainInv s' ∧ TxInv s' := by
  obtain ⟨hci, hti⟩ := hi
  cases hstep with
  | issue params o r h =>
    obtain ⟨hb, hn, hp, _, hc, ht, h0, _⟩ := issue_ok_shape h
    exact ⟨chainInv_of_mined hb hn hp hc hci, txInv_of_appended ht h0 hti⟩
  | verify dh pj v o r h =>
    obtain ⟨b, hb, hn, hp, _, hc, ht, h0, _⟩ := verify_shape dh pj v o s
    rw [h] at hb hc ht h0
    exact ⟨chainInv_of_mined hb hn hp hc hci, txInv_of_appended ht h0 hti⟩
  | revoke dh rb rs o r h =>
    obtain ⟨idx, _, _, hpair⟩ := revoke_ok_shape h
    obtain ⟨b, hb, hn, hp, _, hc, ht, h0, _⟩ := commitStatusChange_shape idx
      { s.certificates.getD idx default with
          status := .revoked, updatedAt := o.nowIso }
      rb "revokeCertificate"
      [("documentHash", .str dh), ("reason", .str rs)]
      "CertificateRevoked"
      [("certificateId", .str (s.certificates.getD idx default).id),
       ("revokedBy", .str rb), ("reason", .str rs)]
      "Certificate revoked successfully" o s
    rw [← hpair] at hb hc ht h0
    exact ⟨chainInv_of_mined hb hn hp hc hci, txInv_of_appended ht h0 hti⟩
  | suspend dh sb rs o r h =>
    obtain ⟨idx, _, _, hpair⟩ := suspend_ok_shape h
    obtain ⟨b, hb, hn, hp, _, hc, ht, h0, _⟩ := commitStatusChange_shape idx
      { s.certificates.getD idx default with
          status := .suspended, updatedAt := o.nowIso }
      sb "suspendCertificate"
      [("documentHash", .str dh), ("reason", .str rs)]
      "CertificateSuspended"
      [("certificateId", .str (s.certificates.getD idx default).id),
       ("suspendedBy", .str sb), ("reason", .str rs)]
      "Certificate suspended successfully" o s
    rw [← hpair] at hb hc ht h0
    exact ⟨chainInv_of_mined hb hn hp hc hci, txInv_of_appended ht h0 hti⟩
  | reinstate dh rb rs o r h =>
    obtain ⟨idx, _, _, hpair⟩ := reinstate_ok_shape h
    obtain ⟨b, hb, hn, hp, _, hc, ht, h0, _⟩ := commitStatusChange_shape idx
      { s.certificates.getD idx default with
          status := .active, updatedAt := o.nowIso }
      rb "reinstateCertificate"
      [("documentHash", .str dh), ("reason", .str rs)]
      "CertificateReinstated"
      [("certificateId", .str (s.certificates.getD idx default).id),
       ("reinstatedBy", .str rb), ("reason", .str rs)]
      "Certificate reinstated successfully" o s
    rw [← hpair] at hb hc ht h0
    exact ⟨chainInv_of_mined hb hn hp hc hci, txInv_of_appended ht h0 hti⟩

theorem reachable_inv {s : ContractState} (h : ContractReachable s) :
    ChainInv s ∧ TxInv s := by
  induction h with
  | init =>
    refine ⟨chainInv_initial, ?_⟩
    intro tx hmem
    simp [initialContractState] at hmem
  | step hr hstep ih => exact contractStep_preserves hstep ih

theorem revoke_ok_iff (dh rb rs : String) (o : ContractOracle)
    (s : ContractState) :
    (∃ out, revokeCertificateOnChain dh rb rs o s = .ok out) ↔
    ∃ idx, findCertIndex s dh = some idx ∧
      ((s.certificates.getD idx default).status = .active ∨
       (s.certificates.getD idx default).status = .suspended) := by
  constructor
  · rintro ⟨⟨res, s'⟩, h⟩
    obtain ⟨idx, hf, hne, _⟩ := revoke_ok_shape h
    refine ⟨idx, hf, ?_⟩
    cases hstatus : (s.certificates.getD idx default).status <;> simp_all
  · rintro ⟨idx, hf, hor⟩
    unfold revokeCertificateOnChain
    rw [hf]
    dsimp only
    split_ifs with hst
    · rcases hor with h | h <;> rw [h] at hst <;> simp at hst
    · exact ⟨_, rfl⟩

theorem suspend_ok_iff (dh sb rs : String) (o : ContractOracle)
    (s : ContractState) :
    (∃ out, suspendCertificateOnChain dh sb rs o s = .ok out) ↔
    ∃ idx, findCertIndex s dh = some idx ∧
      (s.certificates.getD idx default).status = .active := by
  constructor
  · rintro ⟨⟨res, s'⟩, h⟩
    obtain ⟨idx, hf, hst, _⟩ := suspend_ok_shape h
    exact ⟨idx, hf, hst⟩
  · rintro ⟨idx, hf, hact⟩
    unfold suspendCertificateOnChain
    rw [hf]
    dsimp only
    split_ifs with hst
    · rw [hact] at hst
      simp at hst
    · exact ⟨_, rfl⟩

theorem reinstate_ok_iff (dh rb rs : String) (o : ContractOracle)
    (s : ContractState) :
    (∃ out, reinstateCertificateOnChain dh rb rs o s = .ok out) ↔
    ∃ idx, findCertIndex s dh = some idx ∧
      (s.certificates.getD idx default).status = .suspended := by
  constructor
  · rintro ⟨⟨res, s'⟩, h⟩
    obtain ⟨idx, hf, hst, _⟩ := reinstate_ok_shape h
    exact ⟨idx, hf, hst⟩
  · rintro ⟨idx, hf, hsus⟩
    unfold reinstateCertificateOnChain
    rw [hf]
    dsimp only
    split_ifs with hst
    · rw [hsus] at hst
      simp at hst
    · exact ⟨_, rfl⟩

/-- Once a stored certificate is revoked, no contract call changes it. -/
theorem contractStep_keeps_revoked {s s' : ContractState}
    (hstep : ContractStep s s') :
    ∀ j (hj : j < s.certificates.length)
      (hj' : j < s'.certificates.length),
      (s.certificates.get ⟨j, hj⟩).status = .revoked →
      s'.certificates.get ⟨j, hj'⟩ = s.certificates.get ⟨j, hj⟩ := by
  have keepSet :
      ∀ (idx : Nat) (u : OnChainCertificate),
        (s.certificates.getD idx default).status ≠ .revoked →
        ∀ (hcert : s'.certificates = s.certificates.set idx u)
          (j : Nat) (hj : j < s.certificates.length)
          (hj' : j < s'.certificates.length),
          (s.certificates.get ⟨j, hj⟩).status = .revoked →
          s'.certificates.get ⟨j, hj'⟩ = s.certificates.get ⟨j, hj⟩ := by
    intro idx u hne hcert j hj hj' hrev
    by_cases hji : j = idx
    · exfalso
      subst hji
      rw [getD_eq_get hj, hrev] at hne
      exact hne rfl
    · exact get_set_of_eq hcert j hj hj' hji
  cases hstep with
  | issue params o r h =>
    obtain ⟨_, _, _, _, _, _, _, hc⟩ := issue_ok_shape h
    intro j hj hj' _
    exact get_append_of_eq hc j hj hj'
  | verify dh pj v o r h =>
    obtain ⟨_, _, _, _, _, _, _, _, hc⟩ := verify_shape dh pj v o s
    rw [h] at hc
    intro j hj hj' _
    have : s'.certificates = s.certificates := hc
    simp [this]
  | revoke dh rb rs o r h =>
    obtain ⟨idx, _, hne, hpair⟩ := revoke_ok_shape h
    obtain ⟨_, _, _, _, _, _, _, _, hcert, _⟩ := commitStatusChange_shape idx
      { s.certificates.getD idx default with
          status := .revoked, updatedAt := o.nowIso }
      rb "revokeCertificate"
      [("documentHash", .str dh), ("reason", .str rs)]
      "CertificateRevoked"
      [("certificateId", .str (s.certificates.getD idx default).id),
       ("revokedBy", .str rb), ("reason", .str rs)]
      "Certificate revoked successfully" o s
    rw [← hpair] at hcert
    exact keepSet idx _ hne hcert
  | suspend dh sb rs o r h =>
    obtain ⟨idx, hact, hpair⟩ := suspend_ok_shape h
    obtain ⟨_, _, _, _, _, _, _, _, hcert, _⟩ := commitStatusChange_shape idx
      { s.certificates.getD idx default with
          status := .suspended, updatedAt := o.nowIso }
      sb "suspendCertificate"
      [("documentHash", .str dh), ("reason", .str rs)]
      "CertificateSuspended"
      [("certificateId", .str (s.certificates.getD idx default).id),
       ("suspendedBy", .str sb), ("reason", .str rs)]
      "Certificate suspended successfully" o s
    rw [← hpair.2] at hcert
    refine keepSet idx _ ?_ hcert
    rw [hpair.1]
    simp
  | reinstate dh rb rs o r h =>
    obtain ⟨idx, hsus, hpair⟩ := reinstate_ok_shape h
    obtain ⟨_, _, _, _, _, _, _, _, hcert, _⟩ := commitStatusChange_shape idx
      { s.certificates.getD idx default with
          status := .active, updatedAt := o.nowIso }
      rb "reinstateCertificate"
      [("documentHash", .str dh), ("reason", .str rs)]
      "CertificateReinstated"
      [("certificateId", .str (s.certificates.getD idx default).id),
       ("reinstatedBy", .str rb), ("reason", .str rs)]
      "Certificate reinstated successfully" o s
    rw [← hpair.2] at hcert
    refine keepSet idx _ ?_ hcert
    rw [hpair.1]
    simp

/-! ## Concrete contract scenario used by witnesses -/

/-- Concrete issuance parameters for witnesses. -/
def sampleIssueParams : IssueParams :=
  { documentHash := "abc123"
    ipfsCid := "cid1"
    proof := "proofJson"
    issuer := "issuer1"
    holder := "holder1"
    documentType := "degree"
    documentCategory := "educational"
    metadata := [] }

/-- Concrete oracle values for witnesses. -/
def sampleOracle : ContractOracle :=
  { txHash := "0xt1"
    certId := "CERT_A"
    nowIso := "2024-01-01T00:00:00.000Z"
    nowMs := 0
    gasTx := 21000
    gasBlock := 30000 }

/-- Result of issuing the sample certificate on a fresh state. -/
def sampleResult : IssueResult :=
  match issueCertificate sampleIssueParams sampleOracle initialContractState
  with
  | .ok (r, _) => r
  | .error _ => default

/-- State after issuing the sample certificate on a fresh state. -/
def sampleState : ContractState :=
  match issueCertificate sampleIssueParams sampleOracle initialContractState
  with
  | .ok (_, s) => s
  | .error _ => initialContractState

theorem sampleIssue_ok :
    issueCertificate sampleIssueParams sampleOracle initialContractState =
      .ok (sampleResult, sampleState) := rfl

theorem sample_reachable : ContractReachable sampleState :=
  .step .init (.issue sampleIssueParams sampleOracle sampleResult
    sampleIssue_ok)

/-! ## Claim theorems about the contract ledger -/

/-- C5: the contract status machine — revoke succeeds exactly on a found
record that is Active or Suspended (and fails on a Revoked one), suspend
exactly on an Active record, reinstate exactly on a Suspended record and
returns it to Active; a revoked record is never changed by any further
call, and every status is one of Active, Revoked, Suspended. -/
theorem status_transition_legality :
    (∀ (dh rb rs : String) (o : ContractOracle) (s : ContractState),
      (∃ out, revokeCertificateOnChain dh rb rs o s = .ok out) ↔
      ∃ idx, findCertIndex s dh = some idx ∧
        ((s.certificates.getD idx default).status = .active ∨
         (s.certificates.getD idx default).status = .suspended)) ∧
    (∀ (dh sb rs : String) (o : ContractOracle) (s : ContractState),
      (∃ out, suspendCertificateOnChain dh sb rs o s = .ok out) ↔
      ∃ idx, findCertIndex s dh = some idx ∧
        (s.certificates.getD idx default).status = .active) ∧
    (∀ (dh rb rs : String) (o : ContractOracle) (s : ContractState),
      (∃ out, reinstateCertificateOnChain dh rb rs o s = .ok out) ↔
      ∃ idx, findCertIndex s dh = some idx ∧
        (s.certificates.getD idx default).status = .suspended) ∧
    (∀ (dh rb rs : String) (o : ContractOracle) (s s' : ContractState)
        (res : MutateResult),
      reinstateCertificateOnChain dh rb rs o s = .ok (res, s') →
      ∃ idx, findCertIndex s dh = some idx ∧
        s'.certificates = s.certificates.set idx
          { s.certificates.getD idx default with
              status := .active, updatedAt := o.nowIso }) ∧
    (∀ (dh rb rs : String) (o : ContractOracle) (s s' : ContractState)
        (res : MutateResult),
      revokeCertificateOnChain dh rb rs o s = .ok (res, s') →
      ∃ idx, findCertIndex s dh = some idx ∧
        s'.certificates = s.certificates.set idx
          { s.certificates.getD idx default with
              status := .revoked, updatedAt := o.nowIso }) ∧
    (∀ (dh sb rs : String) (o : ContractOracle) (s s' : ContractState)
        (res : MutateResult),
      suspendCertificateOnChain dh sb rs o s = .ok (res, s') →
      ∃ idx, findCertIndex s dh = some idx ∧
        s'.certificates = s.certificates.set idx
          { s.certificates.getD idx default with
              status := .suspended, updatedAt := o.nowIso }) ∧
    (∀ (s s' : ContractState), ContractStep s s' →
      ∀ j (hj : j < s.certificates.length)
        (hj' : j < s'.certificates.length),
        (s.certificates.get ⟨j, hj⟩).status = .revoked →
        s'.certificates.get ⟨j, hj'⟩ = s.certificates.get ⟨j, hj⟩) ∧
    (∀ c : OnChainCertificate,
      c.status = .active ∨ c.status = .revoked ∨ c.status = .suspended) := by
  refine ⟨revoke_ok_iff, suspend_ok_iff, reinstate_ok_iff, ?_, ?_, ?_,
    fun s s' h => contractStep_keeps_revoked h, ?_⟩
  · intro dh rb rs o s s' res h
    obtain ⟨idx, hf, _, hpair⟩ := reinstate_ok_shape h
    obtain ⟨_, _, _, _, _, _, _, _, hcert, _⟩ := commitStatusChange_shape idx
      { s.certificates.getD idx default with
          status := .active, updatedAt := o.nowIso }
      rb "reinstateCertificate"
      [("documentHash", .str dh), ("reason", .str rs)]
      "CertificateReinstated"
      [("certificateId", .str (s.certificates.getD idx default).id),
       ("reinstatedBy", .str rb), ("reason", .str rs)]
      "Certificate reinstated successfully" o s
    rw [← hpair] at hcert
    exact ⟨idx, hf, hcert⟩
  · intro dh rb rs o s s' res h
    obtain ⟨idx, hf, _, hpair⟩ := revoke_ok_shape h
    obtain ⟨_, _, _, _, _, _, _, _, hcert, _⟩ := commitStatusChange_shape idx
      { s.certificates.getD idx default with
          status := .revoked, updatedAt := o.nowIso }
      rb "revokeCertificate"
      [("documentHash", .str dh), ("reason", .str rs)]
      "CertificateRevoked"
      [("certificateId", .str (s.certificates.getD idx default).id),
       ("revokedBy", .str rb), ("reason", .str rs)]
      "Certificate revoked successfully" o s
    rw [← hpair] at hcert
    exact ⟨idx, hf, hcert⟩
  · intro dh sb rs o s s' res h
    obtain ⟨idx, hf, _, hpair⟩ := suspend_ok_shape h
    obtain ⟨_, _, _, _, _, _, _, _, hcert, _⟩ := commitStatusChange_shape idx
      { s.certificates.getD idx default with
          status := .suspended, updatedAt := o.nowIso }
      sb "suspendCertificate"
      [("documentHash", .str dh), ("reason", .str rs)]
      "CertificateSuspended"
      [("certificateId", .str (s.certificates.getD idx default).id),
       ("suspendedBy", .str sb), ("reason", .str rs)]
      "Certificate suspended successfully" o s
    rw [← hpair] at hcert
    exact ⟨idx, hf, hcert⟩
  · intro c
    cases hc : c.status <;> simp

/-- Witness for C5: on the state holding one freshly issued (Active)
certificate, revoking its fingerprint succeeds. -/
theorem status_transition_legality_witness :
    (revokeCertificateOnChain "abc123" "admin" "fraud" sampleOracle
      sampleState).isOk = true := by
  obtain ⟨out, h⟩ := (status_transition_legality.1 "abc123" "admin" "fraud"
    sampleOracle sampleState).mpr ⟨0, rfl, Or.inl rfl⟩
  rw [h]
  rfl

/-- C6: on every reachable state the stored block list starts at number
1 under the all-zero parent sentinel, block numbers increase by one with
no gaps, and each block's `parentHash` is its predecessor's `hash`;
moreover every successful mutating call appends exactly one block whose
transaction list is exactly its one minted transaction hash. -/
theorem block_chain_invariants :
    (∀ s : ContractState, ContractReachable s → chainOk s.blocks = true) ∧
    (∀ (params : IssueParams) (o : ContractOracle) (r : IssueResult)
        (s s' : ContractState),
      issueCertificate params o s = .ok (r, s') →
      s'.blocks = s.blocks ++ [r.block] ∧
      r.block.transactions = [r.transaction.hash]) ∧
    (∀ (dh rb rs : String) (o : ContractOracle) (res : MutateResult)
        (s s' : ContractState),
      revokeCertificateOnChain dh rb rs o s = .ok (res, s') →
      ∃ b, s'.blocks = s.blocks ++ [b] ∧
        b.transactions = [res.transaction.hash]) ∧
    (∀ (dh sb rs : String) (o : ContractOracle) (res : MutateResult)
        (s s' : ContractState),
      suspendCertificateOnChain dh sb rs o s = .ok (res, s') →
      ∃ b, s'.blocks = s.blocks ++ [b] ∧
        b.transactions = [res.transaction.hash]) ∧
    (∀ (dh rb rs : String) (o : ContractOracle) (res : MutateResult)
        (s s' : ContractState),
      reinstateCertificateOnChain dh rb rs o s = .ok (res, s') →
      ∃ b, s'.blocks = s.blocks ++ [b] ∧
        b.transactions = [res.transaction.hash]) := by
  refine ⟨fun s h => (reachable_inv h).1.1, ?_, ?_, ?_, ?_⟩
  · intro params o r s s' h
    obtain ⟨hb, _, _, htx, _, _, _, _⟩ := issue_ok_shape h
    exact ⟨hb, htx⟩
  · intro dh rb rs o res s s' h
    obtain ⟨idx, _, _, hpair⟩ := revoke_ok_shape h
    obtain ⟨b, hb, _, _, htx, _, _, _, _, _⟩ := commitStatusChange_shape idx
      { s.certificates.getD idx default with
          status := .revoked, updatedAt := o.nowIso }
      rb "revokeCertificate"
      [("documentHash", .str dh), ("reason", .str rs)]
      "CertificateRevoked"
      [("certificateId", .str (s.certificates.getD idx default).id),
       ("revokedBy", .str rb), ("reason", .str rs)]
      "Certificate revoked successfully" o s
    rw [← hpair] at hb htx
    exact ⟨b, hb, htx⟩
  · intro dh sb rs o res s s' h
    obtain ⟨idx, _, _, hpair⟩ := suspend_ok_shape h
    obtain ⟨b, hb, _, _, htx, _, _, _, _, _⟩ := commitStatusChange_shape idx
      { s.certificates.getD idx default with
          status := .suspended, updatedAt := o.nowIso }
      sb "suspendCertificate"
      [("documentHash", .str dh), ("reason", .str rs)]
      "CertificateSuspended"
      [("certificateId", .str (s.certificates.getD idx default).id),
       ("suspendedBy", .str sb), ("reason", .str rs)]
      "Certificate suspended successfully" o s
    rw [← hpair] at hb htx
    exact ⟨b, hb, htx⟩
  · intro dh rb rs o res s s' h
    obtain ⟨idx, _, _, hpair⟩ := reinstate_ok_shape h
    obtain ⟨b, hb, _, _, htx, _, _, _, _, _⟩ := commitStatusChange_shape idx
      { s.certificates.getD idx default with
          status := .active, updatedAt := o.nowIso }
      rb "reinstateCertificate"
      [("documentHash", .str dh), ("reason", .str rs)]
      "CertificateReinstated"
      [("certificateId", .str (s.certificates.getD idx default).id),
       ("reinstatedBy", .str rb), ("reason", .str rs)]
      "Certificate reinstated successfully" o s
    rw [← hpair] at hb htx
    exact ⟨b, hb, htx⟩

/-- Witness for C6: the state after one concrete issuance satisfies the
chain well-formedness check, and that issuance mined exactly one block
holding its one transaction. -/
theorem block_chain_invariants_witness :
    chainOk sampleState.blocks = true ∧
    sampleState.blocks =
      initialContractState.blocks ++ [sampleResult.block] ∧
    sampleResult.block.transactions = [sampleResult.transaction.hash] :=
  ⟨block_chain_invariants.1 sampleState sample_reachable,
    block_chain_invariants.2.1 sampleIssueParams sampleOracle sampleResult
      initialContractState sampleState sampleIssue_ok⟩

/-- C10: every stored transaction and every transaction returned by the
five contract calls carries `blockNumber = 0`, although each call mines
a containing block with a positive number in the same call. -/
theorem transaction_block_number_zero :
    (∀ s : ContractState, ContractReachable s →
      ∀ tx ∈ s.transactions, tx.blockNumber = 0) ∧
    (∀ (params : IssueParams) (o : ContractOracle) (r : IssueResult)
        (s s' : ContractState), ContractReachable s →
      issueCertificate params o s = .ok (r, s') →
      r.transaction.blockNumber = 0 ∧ 1 ≤ r.block.number ∧
      r.block.transactions = [r.transaction.hash]) ∧
    (∀ (dh pj v : String) (o : ContractOracle) (s : ContractState),
      ContractReachable s →
      (verifyCertificateOnChain dh pj v o s).1.transaction.blockNumber = 0 ∧
      ∃ b, (verifyCertificateOnChain dh pj v o s).2.blocks =
          s.blocks ++ [b] ∧
        b.transactions =
          [(verifyCertificateOnChain dh pj v o s).1.transaction.hash] ∧
        1 ≤ b.number) ∧
    (∀ (dh rb rs : String) (o : ContractOracle) (res : MutateResult)
        (s s' : ContractState), ContractReachable s →
      revokeCertificateOnChain dh rb rs o s = .ok (res, s') →
      res.transaction.blockNumber = 0) ∧
    (∀ (dh sb rs : String) (o : ContractOracle) (res : MutateResult)
        (s s' : ContractState), ContractReachable s →
      suspendCertificateOnChain dh sb rs o s = .ok (res, s') →
      res.transaction.blockNumber = 0) ∧
    (∀ (dh rb rs : String) (o : ContractOracle) (res : MutateResult)
        (s s' : ContractState), ContractReachable s →
      reinstateCertificateOnChain dh rb rs o s = .ok (res, s') →
      res.transaction.blockNumber = 0) := by
  have commitTx0 : ∀ (idx : Nat) (u : OnChainCertificate)
      (sd mth : String) (args : List (String × JVal)) (en : String)
      (ea : List (String × JVal)) (msg : String) (o : ContractOracle)
      (s : ContractState),
      (commitStatusChange idx u sd mth args en ea msg o s).1.transaction.blockNumber = 0 := by
    intro idx u sd mth args en ea msg o s
    obtain ⟨_, _, _, _, _, _, _, h0, _⟩ :=
      commitStatusChange_shape idx u sd mth args en ea msg o s
    exact h0
  refine ⟨fun s h => (reachable_inv h).2, ?_, ?_, ?_, ?_, ?_⟩
  · intro params o r s s' hr h
    obtain ⟨_, hn, _, htx, _, _, h0, _⟩ := issue_ok_shape h
    have hctr := (reachable_inv hr).1.2
    refine ⟨h0, ?_, htx⟩
    rw [hn, hctr]
    omega
  · intro dh pj v o s hr
    obtain ⟨b, hb, hn, _, htx, _, _, h0, _⟩ := verify_shape dh pj v o s
    have hctr := (reachable_inv hr).1.2
    refine ⟨h0, b, hb, htx, ?_⟩
    rw [hn, hctr]
    omega
  · intro dh rb rs o res s s' _ h
    obtain ⟨idx, _, _, hpair⟩ := revoke_ok_shape h
    have h0 := commitTx0 idx
      { s.certificates.getD idx default with
          status := .revoked, updatedAt := o.nowIso }
      rb "revokeCertificate"
      [("documentHash", .str dh), ("reason", .str rs)]
      "CertificateRevoked"
      [("certificateId", .str (s.certificates.getD idx default).id),
       ("revokedBy", .str rb), ("reason", .str rs)]
      "Certificate revoked successfully" o s
    rw [← hpair] at h0
    exact h0
  · intro dh sb rs o res s s' _ h
    obtain ⟨idx, _, _, hpair⟩ := suspend_ok_shape h
    have h0 := commitTx0 idx
      { s.certificates.getD idx default with
          status := .suspended, updatedAt := o.nowIso }
      sb "suspendCertificate"
      [("documentHash", .str dh), ("reason", .str rs)]
      "CertificateSuspended"
      [("certificateId", .str (s.certificates.getD idx default).id),
       ("suspendedBy", .str sb), ("reason", .str rs)]
      "Certificate suspended successfully" o s
    rw [← hpair] at h0
    exact h0
  · intro dh rb rs o res s s' _ h
    obtain ⟨idx, _, _, hpair⟩ := reinstate_ok_shape h
    have h0 := commitTx0 idx
      { s.certificates.getD idx default with
          status := .active, updatedAt := o.nowIso }
      rb "reinstateCertificate"
      [("documentHash", .str dh), ("reason", .str rs)]
      "CertificateReinstated"
      [("certificateId", .str (s.certificates.getD idx default).id),
       ("reinstatedBy", .str rb), ("reason", .str rs)]
      "Certificate reinstated successfully" o s
    rw [← hpair] at h0
    exact h0

/-- Witness for C10: the concrete issuance returns its transaction with
`blockNumber = 0` even though the mined block has number 1. -/
theorem transaction_block_number_zero_witness :
    sampleResult.transaction.blockNumber = 0 ∧
    1 ≤ sampleResult.block.number ∧
    sampleResult.block.transactions = [sampleResult.transaction.hash] :=
  transaction_block_number_zero.2.1 sampleIssueParams sampleOracle
    sampleResult initialContractState sampleState ContractReachable.init
    sampleIssue_ok

/-! ## Concrete simulated-blockchain scenario used by witnesses -/

/-- Concrete store parameters. -/
def sampleStoreParams : StoreParams :=
  { hash := "abc123"
    cid := "cid1"
    proof := "proofJson"
    issuer := "issuer1"
    issuedTo := "holder1"
    certificateType := "degree"
    metadata := [] }

/-- Concrete oracle for the simulated blockchain. -/
def sampleSimOracle : SimOracle :=
  { txHash := "0xt1"
    recordId := "CERT_A"
    logId := "VER_A"
    nowIso := "2024-01-01T00:00:00.000Z" }

/-- A second oracle with a distinct fresh record id. -/
def sampleSimOracleB : SimOracle :=
  { txHash := "0xt2"
    recordId := "CERT_B"
    logId := "VER_B"
    nowIso := "2024-01-02T00:00:00.000Z" }

/-- A stored record for hash `abc123` in `active` state. -/
def activeRecord : CertificateRecord :=
  { id := "CERT_A"
    hash := "abc123"
    cid := "cid1"
    proof := "proofJson"
    proofHash := hashString "proofJson"
    issuer := "issuer1"
    issuedTo := "holder1"
    certificateType := "degree"
    metadata := []
    transactionHash := "0xt1"
    blockNumber := 1
    timestamp := "2024-01-01T00:00:00.000Z"
    status := .active
    statusHistory :=
      [{ fromStatus := "none"
         toStatus := "active"
         changedBy := "issuer1"
         reason := "Initial issuance"
         timestamp := "2024-01-01T00:00:00.000Z"
         transactionHash := "0xt1" }] }

/-- The same record, revoked. -/
def revokedRecord : CertificateRecord :=
  { activeRecord with status := .revoked }

/-- State whose only record for `abc123` is active. -/
def dupSimState : SimState :=
  { chain := [activeRecord], logs := [], counter := 2 }

/-- State whose only record for `abc123` is revoked. -/
def revokedSimState : SimState :=
  { chain := [revokedRecord], logs := [], counter := 2 }

/-! ## Claim theorems about issuance and ledger errors -/

/-- C4: issuance rejects with the duplicate-fingerprint error precisely
when some stored record with the same fingerprint is Active; otherwise
it appends a fresh record in Active state with a one-entry status
history and the freshly generated id.  Re-issuing a fingerprint whose
existing copies are all Revoked succeeds, and (when the generated id is
fresh) the new Active record coexists with the revoked one under a
distinct record id.  The contract module's `issueCertificate` enforces
the same Active-duplicates-only check. -/
theorem duplicate_fingerprint_policy :
    (∀ (params : StoreParams) (o : SimOracle) (s : SimState),
      storeCertificate params o s =
          .error "Certificate with this hash already exists" ↔
      ∃ r ∈ s.chain, r.hash = params.hash ∧ r.status = .active) ∧
    (∀ (params : StoreParams) (o : SimOracle) (s : SimState),
      (∀ r ∈ s.chain, r.hash = params.hash → r.status ≠ .active) →
      ∃ rec s',
        storeCertificate params o s =
          .ok ({ success := true, record := rec,
                 transactionHash := o.txHash }, s') ∧
        s'.chain = s.chain ++ [rec] ∧ rec.status = .active ∧
        rec.statusHistory.length = 1 ∧ rec.id = o.recordId ∧
        rec.hash = params.hash) ∧
    (∀ (params : StoreParams) (o : SimOracle) (s : SimState)
        (rev : CertificateRecord),
      rev ∈ s.chain → rev.hash = params.hash →
      (∀ r ∈ s.chain, r.hash = params.hash → r.status = .revoked) →
      (∀ r ∈ s.chain, r.id ≠ o.recordId) →
      ∃ rec s',
        storeCertificate params o s =
          .ok ({ success := true, record := rec,
                 transactionHash := o.txHash }, s') ∧
        rev ∈ s'.chain ∧ rec ∈ s'.chain ∧ rec.id ≠ rev.id ∧
        rec.status = .active ∧ rev.status = .revoked) ∧
    (∀ (params : IssueParams) (o : ContractOracle) (s : ContractState),
      issueCertificate params o s =
          .error "REVERT: Certificate with this hash already exists" ↔
      ∃ c ∈ s.certificates,
        c.documentHash = params.documentHash ∧ c.status = .active) := by
  have storeDup : ∀ (params : StoreParams) (o : SimOracle) (s : SimState),
      storeCertificate params o s =
          .error "Certificate with this hash already exists" ↔
      ∃ r ∈ s.chain, r.hash = params.hash ∧ r.status = .active := by
    intro params o s
    unfold storeCertificate
    split_ifs with hdup
    · simp only [List.find?_isSome] at hdup
      simp only [true_iff]
      obtain ⟨r, hmem, hp⟩ := hdup
      simp only [decide_eq_true_eq] at hp
      exact ⟨r, hmem, hp⟩
    · simp only [List.find?_isSome] at hdup
      constructor
      · intro h
        simp at h
      · intro ⟨r, hmem, hp⟩
        exact absurd ⟨r, hmem, by simp [hp]⟩ hdup
  have storeOk : ∀ (params : StoreParams) (o : SimOracle) (s : SimState),
      (∀ r ∈ s.chain, r.hash = params.hash → r.status ≠ .active) →
      ∃ rec s',
        storeCertificate params o s =
          .ok ({ success := true, record := rec,
                 transactionHash := o.txHash }, s') ∧
        s'.chain = s.chain ++ [rec] ∧ rec.status = .active ∧
        rec.statusHistory.length = 1 ∧ rec.id = o.recordId ∧
        rec.hash = params.hash := by
    intro params o s hno
    have hdup : ¬ (s.chain.find? fun r =>
        r.hash = params.hash ∧ r.status = .active).isSome = true := by
      simp only [List.find?_isSome]
      rintro ⟨r, hmem, hp⟩
      simp only [decide_eq_true_eq] at hp
      exact hno r hmem hp.1 hp.2
    refine ⟨newCertificateRecord params o s.counter,
      { s with chain := s.chain ++ [newCertificateRecord params o s.counter],
               counter := s.counter + 1 },
      ?_, rfl, rfl, rfl, rfl, rfl⟩
    unfold storeCertificate
    rw [if_neg hdup]
  refine ⟨storeDup, storeOk, ?_, ?_⟩
  · intro params o s rev hmem hhash hallrev hfresh
    obtain ⟨rec, s', hok, hchain, hact, hhist, hid, hrech⟩ :=
      storeOk params o s (by
        intro r hr hrh
        rw [hallrev r hr hrh]
        simp)
    refine ⟨rec, s', hok, ?_, ?_, ?_, hact, hallrev rev hmem hhash⟩
    · rw [hchain]
      exact List.mem_append_left _ hmem
    · rw [hchain]
      simp
    · rw [hid]
      exact fun hcontra => hfresh rev hmem (by rw [← hcontra])
  · intro params o s
    unfold issueCertificate
    split_ifs with hdup
    · simp only [List.find?_isSome] at hdup
      simp only [true_iff]
      obtain ⟨c, hmem, hp⟩ := hdup
      simp only [decide_eq_true_eq] at hp
      exact ⟨c, hmem, hp⟩
    · simp only [List.find?_isSome] at hdup
      constructor
      · intro h
        simp at h
      · intro ⟨c, hmem, hp⟩
        exact absurd ⟨c, hmem, by simp [hp]⟩ hdup

/-- Witness for C4: a duplicate Active record makes the store throw; on
the state whose only copy is Revoked, re-issuing under a fresh id
succeeds. -/
theorem duplicate_fingerprint_policy_witness :
    storeCertificate sampleStoreParams sampleSimOracleB dupSimState =
      .error "Certificate with this hash already exists" ∧
    (storeCertificate sampleStoreParams sampleSimOracleB
      revokedSimState).isOk = true := by
  constructor
  · exact (duplicate_fingerprint_policy.1 sampleStoreParams sampleSimOracleB
      dupSimState).mpr ⟨activeRecord, by simp [dupSimState], rfl, rfl⟩
  · obtain ⟨rec, s', hok, _⟩ := duplicate_fingerprint_policy.2.2.1
      sampleStoreParams sampleSimOracleB revokedSimState revokedRecord
      (by simp [revokedSimState]) rfl
      (by
        intro r hr _
        have : r = revokedRecord := by
          simpa [revokedSimState] using hr
        rw [this]
        rfl)
      (by
        intro r hr
        have : r = revokedRecord := by
          simpa [revokedSimState] using hr
        rw [this]
        decide)
    rw [hok]
    rfl

/-- C7 (amended): in the simulated blockchain module the
revoke/suspend/reinstate errors — unknown fingerprint and illegal state
transition — are returned as typed results with `success = false` and a
nonempty message, leaving the store unchanged and never throwing; the
duplicate-fingerprint error on issue, however, is thrown as an exception
(`storeCertificate`, and likewise `issueCertificate` of the contract
module), and the contract module's revoke call throws `REVERT` errors
instead of returning failures. -/
theorem ledger_mutation_error_reporting :
    (∀ (h rb rs : String) (o : SimOracle) (s : SimState),
      findRecordIndex s h = none →
      revokeCertificate h rb rs o s =
        ({ success := false, transactionHash := "",
           message := "Certificate not found" }, s)) ∧
    (∀ (h rb rs : String) (o : SimOracle) (s : SimState) (idx : Nat),
      findRecordIndex s h = some idx →
      (s.chain.getD idx default).status = .revoked →
      revokeCertificate h rb rs o s =
        ({ success := false, transactionHash := "",
           message := "Certificate already revoked" }, s)) ∧
    (∀ (h rb rs : String) (o : SimOracle) (s : SimState),
      ((revokeCertificate h rb rs o s).1.success = false →
        (revokeCertificate h rb rs o s).1.message ≠ "" ∧
        (revokeCertificate h rb rs o s).2 = s)) ∧
    (∀ (h sb rs : String) (o : SimOracle) (s : SimState),
      ((suspendCertificate h sb rs o s).1.success = false →
        (suspendCertificate h sb rs o s).1.message ≠ "" ∧
        (suspendCertificate h sb rs o s).2 = s)) ∧
    (∀ (h rb rs : String) (o : SimOracle) (s : SimState),
      ((reinstateCertificate h rb rs o s).1.success = false →
        (reinstateCertificate h rb rs o s).1.message ≠ "" ∧
        (reinstateCertificate h rb rs o s).2 = s)) ∧
    (∀ (params : StoreParams) (o : SimOracle) (s : SimState),
      (∃ r ∈ s.chain, r.hash = params.hash ∧ r.status = .active) →
      storeCertificate params o s =
        .error "Certificate with this hash already exists") ∧
    (∀ (dh rb rs : String) (o : ContractOracle) (s : ContractState),
      findCertIndex s dh = none →
      revokeCertificateOnChain dh rb rs o s =
        .error "REVERT: Certificate not found") := by
  refine ⟨?_, ?_, ?_, ?_, ?_, ?_, ?_⟩
  · intro h rb rs o s hf
    unfold revokeCertificate
    rw [hf]
  · intro h rb rs o s idx hf hst
    unfold revokeCertificate
    rw [hf]
    dsimp only
    rw [if_pos hst]
  · intro h rb rs o s
    unfold revokeCertificate
    cases hf : findRecordIndex s h with
    | none =>
      dsimp only
      intro _
      exact ⟨by simp, rfl⟩
    | some idx =>
      dsimp only
      split_ifs with hst
      · intro _
        exact ⟨by simp, rfl⟩
      · intro hcontra
        simp at hcontra
  · intro h sb rs o s
    unfold suspendCertificate
    cases hf : findRecordIndex s h with
    | none =>
      dsimp only
      intro _
      exact ⟨by simp, rfl⟩
    | some idx =>
      dsimp only
      split_ifs with hst
      · intro _
        refine ⟨?_, rfl⟩
        cases hs : (s.chain.getD idx default).status <;> simp [CertStatus.toStr]
      · intro hcontra
        simp at hcontra
  · intro h rb rs o s
    unfold reinstateCertificate
    cases hf : findRecordIndex s h with
    | none =>
      dsimp only
      intro _
      exact ⟨by simp, rfl⟩
    | some idx =>
      dsimp only
      split_ifs with hst
      · intro _
        exact ⟨by simp, rfl⟩
      · intro hcontra
        simp at hcontra
  · intro params o s hdup
    exact (duplicate_fingerprint_policy.1 params o s).mpr hdup
  · intro dh rb rs o s hf
    unfold revokeCertificateOnChain
    rw [hf]

/-- Witness for C7 (amended): revoking an unknown fingerprint on the
empty store returns the typed not-found failure. -/
theorem ledger_mutation_error_reporting_witness :
    revokeCertificate "nope" "admin" "r" sampleSimOracle initialSimState =
      ({ success := false, transactionHash := "",
         message := "Certificate not found" }, initialSimState) :=
  ledger_mutation_error_reporting.1 "nope" "admin" "r" sampleSimOracle
    initialSimState rfl

/-- Counterexample for C7 as stated: the duplicate-fingerprint error on
issue is thrown (modelled as `Except.error`), not returned as a typed
`success = false` result — in both the simulated blockchain module and
the contract module; the contract module moreover throws on
revoke-not-found. -/
theorem ledger_mutation_error_thrown_counterexample :
    storeCertificate sampleStoreParams sampleSimOracle dupSimState =
      .error "Certificate with this hash already exists" ∧
    issueCertificate sampleIssueParams sampleOracle sampleState =
      .error "REVERT: Certificate with this hash already exists" ∧
    revokeCertificateOnChain "missing" "admin" "r" sampleOracle
      initialContractState = .error "REVERT: Certificate not found" := by
  refine ⟨rfl, rfl, rfl⟩

/-- C9: `hashObject` (canonicalising `JSON.stringify` with the sorted
key replacer, then `hashString`) is a pure function of its argument, and
two objects that are equal as key-value maps — the same keys bound to
the same values, regardless of entry insertion order, including inside
nested objects — receive the same digest. -/
theorem hashObject_canonical (kvs1 kvs2 : List (String × JVal))
    (h : JEquiv (.obj kvs1) (.obj kvs2)) :
    hashObject kvs1 = hashObject kvs2 := by
  cases h with
  | obj _ _ hkeys hval =>
    unfold hashObject
    rw [propertyList_congr hkeys,
      serializeVal_congr (JEquiv.obj _ _ hkeys hval) (propertyList kvs2)]

/-- Witness for C9: two concrete two-key objects differing only in entry
order hash identically. -/
theorem hashObject_canonical_witness :
    hashObject [("b", JVal.num 1), ("a", JVal.str "x")] =
      hashObject [("a", JVal.str "x"), ("b", JVal.num 1)] := by
  refine hashObject_canonical _ _ (JEquiv.obj _ _ ?_ ?_)
  · simp only [List.map_cons, List.map_nil]
    exact List.Perm.swap "a" "b" []
  · intro k v1 v2 h1 h2
    by_cases hka : k = "a"
    · subst hka
      simp [lookupKV] at h1 h2
      subst h1
      subst h2
      exact .str "x"
    · by_cases hkb : k = "b"
      · subst hkb
        simp [lookupKV] at h1 h2
        subst h1
        subst h2
        exact .num 1
      · simp [lookupKV, Ne.symm hka, Ne.symm hkb] at h1

end ZKVault
